import Mathlib

set_option autoImplicit false
set_option maxRecDepth 8000

namespace X402

/-- Strings are modelled as explicit lists of characters. -/
abbrev Str := List Char

/-- Opening brace character, kept as a named constant. -/
def lbraceChar : Char := Char.ofNat 123

/-- Closing brace character, kept as a named constant. -/
def rbraceChar : Char := Char.ofNat 125

/-- ASCII whitespace as recognised by JavaScript's `\s`, `trim()` and
`String.prototype.split(/\s+/)` (the Unicode-only whitespace code points do
not occur in the inputs considered here). -/
def jsWhitespace (c : Char) : Bool :=
  c = ' ' || c = '\t' || c = '\n' || c = '\r' || c = Char.ofNat 11 || c = Char.ofNat 12

/-- JavaScript `String.prototype.trim`. -/
def jsTrim (s : Str) : Str :=
  ((s.dropWhile jsWhitespace).reverse.dropWhile jsWhitespace).reverse

/-- ASCII uppercase of one character (`String.prototype.toUpperCase` on the
ASCII range, which covers the verbs and methods used by the middleware). -/
def jsUpperChar (c : Char) : Char :=
  if 'a' ≤ c ∧ c ≤ 'z' then Char.ofNat (c.toNat - 32) else c

/-- JavaScript `String.prototype.toUpperCase` (ASCII range). -/
def jsToUpper (s : Str) : Str := s.map jsUpperChar

/-- ASCII lowercase of one character, used for the case-insensitive regex
flag `i`. -/
def jsLowerChar (c : Char) : Char :=
  if 'A' ≤ c ∧ c ≤ 'Z' then Char.ofNat (c.toNat + 32) else c

/-- Case-insensitive character comparison (the `i` regex flag, ASCII range). -/
def ciEq (a b : Char) : Bool := jsLowerChar a = jsLowerChar b

/-- JavaScript truthiness of a string: the empty string is falsy. -/
def jsOrStr (a b : Str) : Str := if a = [] then b else a

/-- Numeric value of a run of decimal digits. -/
def digitsToNat (s : Str) : ℕ :=
  s.foldl (fun acc c => acc * 10 + (c.toNat - 48)) 0

/-- Decimal digit string of a natural number. -/
def natToStr (n : ℕ) : Str := Nat.toDigits 10 n

/-- Hexadecimal digit value. -/
def hexDigitVal (c : Char) : Option ℕ :=
  if '0' ≤ c ∧ c ≤ '9' then some (c.toNat - 48)
  else if 'a' ≤ c ∧ c ≤ 'f' then some (c.toNat - 87)
  else if 'A' ≤ c ∧ c ≤ 'F' then some (c.toNat - 55)
  else none

/-- JavaScript `String(n)` for an integer of magnitude at least `10^21`:
exponential notation.  The digit string with its trailing zeros removed
supplies the significand (a dot after the first digit when more digits
remain), and the exponent is one less than the digit count — for an exact
integer this is the `s`/`k`/`n` decomposition of the ECMA-262 Number
`toString` algorithm, e.g. `String(1e21) = "1e+21"`. -/
def natToExpStr (n : ℕ) : Str :=
  match (((natToStr n).reverse.dropWhile (fun c => c = '0')).reverse : Str) with
  | [] => ['0']
  | d :: rest =>
      d :: (if rest = [] then [] else '.' :: rest) ++
        ('e' :: '+' :: natToStr ((natToStr n).length - 1))

/-- JavaScript `String(n)` for an exact integer value: decimal digits below
`10^21`, exponential notation from `10^21` up, with a leading minus for
negative values. -/
def jsIntToString (n : ℤ) : Str :=
  (if n < 0 then ['-'] else []) ++
    (if n.natAbs < 10 ^ 21 then natToStr n.natAbs else natToExpStr n.natAbs)

/-- Scaled-decimal rationals: `⟨m, s⟩` denotes the number `m / 10^s`.  All
numbers the middleware manipulates are decimal literals, and the only
arithmetic it performs on them is comparison with zero, floor, negation and
scaling by powers of ten — all exact in this representation (and computable
by kernel reduction, unlike normalised `ℚ` whose `Nat.gcd` does not reduce
definitionally).  The representation is not normalised; all concrete values
in this development are written in the form the parsers produce. -/
structure Dec where
  mant : ℤ
  scale : ℕ
deriving DecidableEq

/-- Denotation of a scaled decimal as a rational (used in specifications
only, never evaluated by the kernel). -/
def Dec.toRat (d : Dec) : ℚ := (d.mant : ℚ) / 10 ^ d.scale

/-- Embed an integer. -/
def Dec.ofInt (n : ℤ) : Dec := ⟨n, 0⟩

/-- Negation. -/
def Dec.neg (d : Dec) : Dec := ⟨-d.mant, d.scale⟩

/-- Comparison `d ≤ 0` (the denominator `10^s` is positive, so the sign of
the value is the sign of the mantissa). -/
def Dec.nonposb (d : Dec) : Bool := d.mant ≤ 0

/-- Comparison `0 < d`. -/
def Dec.posb (d : Dec) : Bool := 0 < d.mant

/-- JavaScript `Math.floor` of `m / 10^s`: integer division rounding toward
negative infinity. -/
def Dec.floor (d : Dec) : ℤ := Int.fdiv d.mant (10 ^ d.scale)

/-- JavaScript numbers (IEEE doubles) modelled as exact scaled decimals
together with the three non-finite values.  The middleware only compares,
floors and prints numbers, so double rounding is not modelled. -/
inductive JSNum where
  | nan
  | posInf
  | negInf
  | num (d : Dec)
deriving DecidableEq

/-- JavaScript `Number.isFinite`. -/
def JSNum.isFinite : JSNum → Bool
  | .num _ => true
  | _ => false

/-- Scale a decimal by `10^ex` (the exponent part of a numeric literal). -/
def applyExponent (d : Dec) (ex : ℤ) : Dec :=
  if 0 ≤ ex then ⟨d.mant * 10 ^ ex.toNat, d.scale⟩ else ⟨d.mant, d.scale + ex.natAbs⟩

/-- Parse the mantissa of an unsigned decimal numeral (digits with an
optional dot, at least one digit in total), returning its value and the
remaining input. -/
def parseDecMantissa (s : Str) : Option (Dec × Str) :=
  let intPart := s.takeWhile Char.isDigit
  let rest := s.dropWhile Char.isDigit
  match rest with
  | '.' :: frac =>
      let fracDigits := frac.takeWhile Char.isDigit
      if intPart = [] ∧ fracDigits = [] then none
      else
        some (⟨digitsToNat intPart * 10 ^ fracDigits.length + digitsToNat fracDigits,
               fracDigits.length⟩, frac.dropWhile Char.isDigit)
  | _ => if intPart = [] then none else some (⟨digitsToNat intPart, 0⟩, rest)

/-- Parse a whole unsigned decimal numeral with optional fraction and
exponent (`digits[.digits][(e|E)[+|-]digits]`, or starting with the dot) —
the unsigned decimal literal of the `Number(string)` grammar; anything else
is NaN (`none`). -/
def parseUnsignedDec (s : Str) : Option Dec :=
  match parseDecMantissa s with
  | none => none
  | some (d, rest) =>
      match rest with
      | [] => some d
      | 'e' :: r | 'E' :: r =>
          let signedE : ℤ × Str := match r with
            | '-' :: r2 => (-1, r2)
            | '+' :: r2 => (1, r2)
            | _ => (1, r)
          let ds := signedE.2.takeWhile Char.isDigit
          if ds = [] ∨ signedE.2.dropWhile Char.isDigit ≠ [] then none
          else some (applyExponent d (signedE.1 * (digitsToNat ds : ℤ)))
      | _ => none

/-- Value of a non-empty run of digits in the given radix, `none` when
empty or containing an out-of-range digit (the bodies of the `0x`, `0o`
and `0b` literals of `Number(string)`). -/
def parseRadixDigits (radix : ℕ) (s : Str) : Option ℕ :=
  match s with
  | [] => none
  | _ =>
      if s.all (fun c => (hexDigitVal c).getD 16 < radix) then
        some (s.foldl (fun acc c => acc * radix + (hexDigitVal c).getD 0) 0)
      else none

/-- JavaScript `Number(string)` (the `StringNumericLiteral` grammar): the
string is trimmed; the empty string is 0; `Infinity` forms are infinite;
`0x`/`0X`, `0o`/`0O` and `0b`/`0B` literals are unsigned radix integers (a
sign before them is NaN, as in JavaScript); otherwise an optionally signed
decimal numeral with optional fraction and exponent; every other string is
NaN.  Values are exact — double rounding is not modelled (see `Dec`). -/
def jsStringToNumber (s : Str) : JSNum :=
  let t := jsTrim s
  if t = [] then .num ⟨0, 0⟩
  else if t = "Infinity".data ∨ t = "+Infinity".data then .posInf
  else if t = "-Infinity".data then .negInf
  else
    match t with
    | '0' :: 'x' :: rest | '0' :: 'X' :: rest =>
        match parseRadixDigits 16 rest with
        | some n => .num ⟨n, 0⟩
        | none => .nan
    | '0' :: 'o' :: rest | '0' :: 'O' :: rest =>
        match parseRadixDigits 8 rest with
        | some n => .num ⟨n, 0⟩
        | none => .nan
    | '0' :: 'b' :: rest | '0' :: 'B' :: rest =>
        match parseRadixDigits 2 rest with
        | some n => .num ⟨n, 0⟩
        | none => .nan
    | '-' :: rest =>
        match parseUnsignedDec rest with
        | some q => .num q.neg
        | none => .nan
    | '+' :: rest =>
        match parseUnsignedDec rest with
        | some q => .num q
        | none => .nan
    | _ =>
        match parseUnsignedDec t with
        | some q => .num q
        | none => .nan

/-- A JavaScript value that is either a number or a string: the shapes a
route price or a configured `minAmountRequired` can take. -/
inductive JSVal where
  | num (x : JSNum)
  | str (s : Str)
deriving DecidableEq

/-- JavaScript `Number(value)` on the values of `JSVal`. -/
def jsToNumber : JSVal → JSNum
  | .num x => x
  | .str s => jsStringToNumber s

/-- JSON values as produced by `JSON.parse`.  Object keys are unique and in
insertion order: a duplicate key in the source overwrites the value but keeps
the first position, as in JavaScript. -/
inductive Json where
  | null
  | bool (b : Bool)
  | num (d : Dec)
  | str (s : Str)
  | arr (elems : List Json)
  | obj (fields : List (Str × Json))

/-- Insert (or overwrite) a key in an object's field list, JavaScript
property semantics: an existing key keeps its position, a new key is
appended. -/
def insertKey (fields : List (Str × Json)) (k : Str) (v : Json) : List (Str × Json) :=
  match fields with
  | [] => [(k, v)]
  | (k1, v1) :: rest =>
      if k1 = k then (k1, v) :: rest else (k1, v1) :: insertKey rest k v

/-- Look a key up in an object's field list. -/
def lookupField (fields : List (Str × Json)) (k : Str) : Option Json :=
  match fields with
  | [] => none
  | (k1, v1) :: rest => if k1 = k then some v1 else lookupField rest k

/-- JavaScript property access `value[k]`: `none` models `undefined`
(including access on any non-object primitive). -/
def jGet (j : Json) (k : Str) : Option Json :=
  match j with
  | .obj fields => lookupField fields k
  | _ => none

/-- JavaScript property assignment `value[k] = v` on an object. -/
def jSet (j : Json) (k : Str) (v : Json) : Json :=
  match j with
  | .obj fields => .obj (insertKey fields k v)
  | _ => j

/-- JavaScript truthiness of a JSON value. -/
def jTruthy : Json → Bool
  | .null => false
  | .bool b => b
  | .num d => d.mant ≠ 0
  | .str s => s ≠ []
  | .arr _ => true
  | .obj _ => true

/-- JavaScript loose equality with `null` (`value == null`), true exactly
for `null` and `undefined`. -/
def isNullish : Option Json → Bool
  | none => true
  | some .null => true
  | some _ => false

/-- JavaScript `a || b` where `a` is a possibly-undefined JSON value. -/
def jsOrJson (a : Option Json) (b : Json) : Json :=
  match a with
  | none => b
  | some v => if jTruthy v then v else b

/-- JSON whitespace accepted around tokens by `JSON.parse`. -/
def jsonWs (c : Char) : Bool := c = ' ' || c = '\t' || c = '\n' || c = '\r'

/-- Skip JSON whitespace. -/
def skipJsonWs (s : Str) : Str := s.dropWhile jsonWs

/-- Decode one escape sequence after a backslash inside a JSON string,
returning the character and the remaining input.  A `\u` escape in the
high-surrogate range must be followed by a low-surrogate escape (a lone
surrogate has no counterpart in Lean's `Char` and is rejected by the model). -/
def parseJsonEscape (s : Str) : Option (Char × Str) :=
  match s with
  | '"' :: r => some ('"', r)
  | '\\' :: r => some ('\\', r)
  | '/' :: r => some ('/', r)
  | 'b' :: r => some (Char.ofNat 8, r)
  | 'f' :: r => some (Char.ofNat 12, r)
  | 'n' :: r => some ('\n', r)
  | 'r' :: r => some ('\r', r)
  | 't' :: r => some ('\t', r)
  | 'u' :: h1 :: h2 :: h3 :: h4 :: r =>
      match hexDigitVal h1, hexDigitVal h2, hexDigitVal h3, hexDigitVal h4 with
      | some a, some b, some c, some d =>
          let code := ((a * 16 + b) * 16 + c) * 16 + d
          if code < 0xD800 ∨ 0xDFFF < code then some (Char.ofNat code, r)
          else if code ≤ 0xDBFF then
            match r with
            | '\\' :: 'u' :: g1 :: g2 :: g3 :: g4 :: r2 =>
                match hexDigitVal g1, hexDigitVal g2, hexDigitVal g3, hexDigitVal g4 with
                | some a2, some b2, some c2, some d2 =>
                    let lo := ((a2 * 16 + b2) * 16 + c2) * 16 + d2
                    if 0xDC00 ≤ lo ∧ lo ≤ 0xDFFF then
                      some (Char.ofNat (0x10000 + (code - 0xD800) * 0x400 + (lo - 0xDC00)), r2)
                    else none
                | _, _, _, _ => none
            | _ => none
          else none
      | _, _, _, _ => none
  | _ => none

/-- Parse the body of a JSON string after the opening quote, returning the
content and the input after the closing quote.  Unescaped control
characters are invalid JSON. -/
def parseJsonString (fuel : ℕ) (s : Str) : Option (Str × Str) :=
  match fuel, s with
  | 0, _ => none
  | _, [] => none
  | _ + 1, '"' :: rest => some ([], rest)
  | f + 1, '\\' :: rest =>
      match parseJsonEscape rest with
      | none => none
      | some (c, rest1) => (parseJsonString f rest1).map (fun p => (c :: p.1, p.2))
  | f + 1, c :: rest =>
      if c.toNat < 32 then none
      else (parseJsonString f rest).map (fun p => (c :: p.1, p.2))

/-- Parse a JSON number (`-? int frac? exp?`), returning its exact rational
value and the remaining input. -/
def parseJsonNumber (s : Str) : Option (Dec × Str) :=
  let signed : Bool × Str := match s with
    | '-' :: r => (true, r)
    | _ => (false, s)
  let isNeg := signed.1
  let s1 := signed.2
  let intRes : Option (ℕ × Str) := match s1 with
    | '0' :: r => some (0, r)
    | c :: _ =>
        if c.isDigit then
          some (digitsToNat (s1.takeWhile Char.isDigit), s1.dropWhile Char.isDigit)
        else none
    | [] => none
  match intRes with
  | none => none
  | some (ip, s2) =>
      let fracRes : Option (ℕ × ℕ × Str) := match s2 with
        | '.' :: r =>
            let ds := r.takeWhile Char.isDigit
            if ds = [] then none
            else some (digitsToNat ds, ds.length, r.dropWhile Char.isDigit)
        | _ => some (0, 0, s2)
      match fracRes with
      | none => none
      | some (fp, fl, s3) =>
          let expRes : Option (ℤ × Str) := match s3 with
            | 'e' :: r | 'E' :: r =>
                let signedE : ℤ × Str := match r with
                  | '-' :: r2 => (-1, r2)
                  | '+' :: r2 => (1, r2)
                  | _ => (1, r)
                let ds := signedE.2.takeWhile Char.isDigit
                if ds = [] then none
                else some (signedE.1 * (digitsToNat ds : ℤ), signedE.2.dropWhile Char.isDigit)
            | _ => some (0, s3)
          match expRes with
          | none => none
          | some (ex, s4) =>
              let mant0 : ℤ := (ip * 10 ^ fl + fp : ℕ)
              let mant1 : ℤ := if isNeg then -mant0 else mant0
              let d : Dec :=
                if 0 ≤ ex then ⟨mant1 * 10 ^ ex.toNat, fl⟩
                else ⟨mant1, fl + ex.natAbs⟩
              some (d, s4)

mutual

/-- Parse one JSON value (fuelled recursive-descent mirror of `JSON.parse`). -/
def parseJsonVal (fuel : ℕ) (s : Str) : Option (Json × Str) :=
  match fuel with
  | 0 => none
  | f + 1 =>
      match skipJsonWs s with
      | 'n' :: 'u' :: 'l' :: 'l' :: r => some (.null, r)
      | 't' :: 'r' :: 'u' :: 'e' :: r => some (.bool true, r)
      | 'f' :: 'a' :: 'l' :: 's' :: 'e' :: r => some (.bool false, r)
      | '"' :: r => (parseJsonString f r).map (fun p => (.str p.1, p.2))
      | '[' :: r =>
          (match skipJsonWs r with
           | ']' :: rest => some (.arr [], rest)
           | _ => parseJsonElems f r [])
      | c :: r =>
          if c = lbraceChar then
            match skipJsonWs r with
            | c2 :: rest =>
                if c2 = rbraceChar then some (.obj [], rest)
                else parseJsonMembers f r []
            | [] => none
          else (parseJsonNumber (c :: r)).map (fun p => (.num p.1, p.2))
      | [] => none

/-- Parse the elements of a non-empty JSON array. -/
def parseJsonElems (fuel : ℕ) (s : Str) (acc : List Json) : Option (Json × Str) :=
  match fuel with
  | 0 => none
  | f + 1 =>
      match parseJsonVal f s with
      | none => none
      | some (v, rest) =>
          match skipJsonWs rest with
          | ',' :: rest2 => parseJsonElems f rest2 (acc ++ [v])
          | ']' :: rest2 => some (.arr (acc ++ [v]), rest2)
          | _ => none

/-- Parse the members of a non-empty JSON object (duplicate keys overwrite,
keeping the first position, as `JSON.parse` does). -/
def parseJsonMembers (fuel : ℕ) (s : Str) (acc : List (Str × Json)) : Option (Json × Str) :=
  match fuel with
  | 0 => none
  | f + 1 =>
      match skipJsonWs s with
      | '"' :: r =>
          match parseJsonString f r with
          | none => none
          | some (k, rest) =>
              match skipJsonWs rest with
              | ':' :: rest2 =>
                  match parseJsonVal f rest2 with
                  | none => none
                  | some (v, rest3) =>
                      match skipJsonWs rest3 with
                      | ',' :: rest4 => parseJsonMembers f rest4 (insertKey acc k v)
                      | c :: rest4 =>
                          if c = rbraceChar then some (.obj (insertKey acc k v), rest4)
                          else none
                      | [] => none
              | _ => none
      | _ => none

end

/-- JavaScript `JSON.parse`: parse one value and require only whitespace to
remain. -/
def jsonParse (s : Str) : Option Json :=
  match parseJsonVal (2 * s.length + 4) s with
  | some (v, rest) => if skipJsonWs rest = [] then some v else none
  | none => none

/-- Tokens of the regex dialect produced by the route-pattern translation:
case-insensitive literal characters, the lazy wildcard `.*?` and the
path-segment parameter `[^/]+`. -/
inductive RTok where
  | lit (c : Char)
  | anyLazy
  | segParam
deriving DecidableEq

/-- Line terminators, which `.` does not match (the `s` flag is not set). -/
def isLineTerminator (c : Char) : Bool :=
  c = '\n' || c = '\r' || c = Char.ofNat 0x2028 || c = Char.ofNat 0x2029

/-- Fuelled anchored matcher for the token dialect, deciding whether a full
match of the token list against the string exists.  Laziness of `*?`
affects captured text only, never whether `RegExp.test` succeeds, so the
existential semantics is exact. -/
def rmatchF : ℕ → List RTok → Str → Bool
  | 0, _, _ => false
  | _ + 1, [], [] => true
  | _ + 1, [], _ :: _ => false
  | f + 1, .lit c :: ts, s =>
      match s with
      | [] => false
      | x :: xs => ciEq c x && rmatchF f ts xs
  | f + 1, .anyLazy :: ts, [] => rmatchF f ts []
  | f + 1, .anyLazy :: ts, x :: xs =>
      rmatchF f ts (x :: xs) || (!isLineTerminator x && rmatchF f (.anyLazy :: ts) xs)
  | _ + 1, .segParam :: _, [] => false
  | f + 1, .segParam :: ts, x :: xs =>
      x ≠ '/' && (rmatchF f ts xs || rmatchF f (.segParam :: ts) xs)

/-- Anchored `RegExp.test` with the `i` flag for the token dialect.  Every
recursive step of `rmatchF` shortens the token list or the string, so this
fuel always suffices. -/
def rmatch (ts : List RTok) (s : Str) : Bool := rmatchF (ts.length + s.length + 1) ts s

/-- The metacharacters escaped by the first replacement in
`computeRoutePatterns` (the class `[$()+.?^\x7b|\x7d]`). -/
def isEscapedMeta (c : Char) : Bool :=
  c = '$' || c = '(' || c = ')' || c = '+' || c = '.' || c = '?' || c = '^' ||
    c = lbraceChar || c = '|' || c = rbraceChar

/-- First replacement: escape regex metacharacters (`\$&`). -/
def escapeMeta (s : Str) : Str :=
  s.flatMap (fun c => if isEscapedMeta c then ['\\', c] else [c])

/-- Second replacement: each `*` becomes the lazy wildcard `.*?`. -/
def starToLazy (s : Str) : Str :=
  s.flatMap (fun c => if c = '*' then ['.', '*', '?'] else [c])

/-- Third replacement (`/\[([^\]]+)\]/g` becomes `[^/]+`): a left-to-right
scan replacing each non-overlapping `[` … `]` span with non-empty contents,
as a global regex replace does.  The fuel is the string length; each step
consumes at least one character. -/
def bracketReplaceF : ℕ → Str → Str
  | 0, s => s
  | _, [] => []
  | f + 1, c :: rest =>
      if c = '[' then
        match rest.dropWhile (fun x => x ≠ ']') with
        | ']' :: rest2 =>
            if rest.takeWhile (fun x => x ≠ ']') = [] then '[' :: bracketReplaceF f rest
            else "[^/]+".data ++ bracketReplaceF f rest2
        | _ => '[' :: bracketReplaceF f rest
      else c :: bracketReplaceF f rest

/-- Third replacement, at its natural fuel. -/
def bracketReplace (s : Str) : Str := bracketReplaceF s.length s

/-- Fourth replacement: escape `/` as `\/`. -/
def slashEscape (s : Str) : Str :=
  s.flatMap (fun c => if c = '/' then ['\\', '/'] else [c])

/-- The full path-to-regex translation of `computeRoutePatterns`, anchors
included: the `source` text of the compiled `RegExp`. -/
def pathToRegexSrc (path : Str) : Str :=
  '^' :: slashEscape (bracketReplace (starToLazy (escapeMeta path))) ++ ['$']

/-- Characters with regex meaning when unescaped.  A source using one
outside the three produced token shapes is not given a semantics by the
model (route compilation reports it as a regex-syntax failure rather than
model the full JavaScript regex grammar); the translation pipeline never
emits such a source for the path shapes considered here. -/
def isRegexSpecial (c : Char) : Bool :=
  c = '\\' || c = '^' || c = '$' || c = '.' || c = '*' || c = '+' || c = '?' ||
    c = '(' || c = ')' || c = '[' || c = lbraceChar || c = rbraceChar || c = '|' || c = '/'

/-- Read a produced regex source (between the anchors) back into tokens:
`[^\/]+` (the bracket replacement after the final slash-escaping pass) is
the segment parameter, `.*?` is the lazy wildcard, an escaped
non-alphanumeric character is a literal, and a plain non-special character
is a literal. -/
def parseRegexAux : Str → Option (List RTok)
  | [] => some []
  | '[' :: '^' :: '\\' :: '/' :: ']' :: '+' :: rest =>
      (parseRegexAux rest).map (fun ts => .segParam :: ts)
  | '\\' :: c :: rest =>
      if c.isAlphanum then none
      else (parseRegexAux rest).map (fun ts => .lit c :: ts)
  | '.' :: '*' :: '?' :: rest => (parseRegexAux rest).map (fun ts => .anyLazy :: ts)
  | c :: rest =>
      if isRegexSpecial c then none else (parseRegexAux rest).map (fun ts => .lit c :: ts)

/-- Read a full anchored source `^…$` back into tokens. -/
def parseRegexSrc (src : Str) : Option (List RTok) :=
  match src with
  | '^' :: rest =>
      match rest.getLast? with
      | some '$' => parseRegexAux rest.dropLast
      | _ => none
  | _ => none

/-- Default network (`DEFAULT_NETWORK`). -/
def DEFAULT_NETWORK : Str := "bch".data

/-- Default asset placeholder (`DEFAULT_ASSET`). -/
def DEFAULT_ASSET : Str := "0x0000000000000000000000000000000000000001".data

/-- Default minimum amount (`DEFAULT_MIN_AMOUNT`). -/
def DEFAULT_MIN_AMOUNT : ℤ := 1000

/-- The fields of a route value that the middleware reads.  `config` is the
nested per-route metadata object, modelled as a parsed JSON value since the
middleware reads dynamic properties from it. -/
structure RouteConfig where
  minAmountRequired : Option JSVal := none
  price : Option JSVal := none
  network : Option Str := none
  config : Option Json := none

/-- A route value in the user-supplied route map: a bare price (string or
number shorthand) or a verbose configuration object. -/
inductive RouteVal where
  | strVal (s : Str)
  | numVal (x : JSNum)
  | objVal (cfg : RouteConfig)

/-- A compiled route pattern: uppercased verb, compiled regex (its `source`
text together with its token semantics) and the normalised route config.
The config type is a parameter; `findMatchingRoute` never inspects it. -/
structure CompiledPattern (α : Type) where
  verb : Str
  src : Str
  toks : List RTok
  config : α

/-- The reserved route-map key. -/
def networkKey : Str := "network".data

/-- Association-list lookup for route entries (JavaScript object property
access; keys of an object literal are unique). -/
def lookupRoute (routes : List (Str × RouteVal)) (k : Str) : Option RouteVal :=
  match routes with
  | [] => none
  | (k1, v) :: rest => if k1 = k then some v else lookupRoute rest k

/-- JavaScript `routes.network || DEFAULT_NETWORK`.  The external interface
(§6) types the reserved `network` value as a string; a non-string value
there is outside the model and falls back to the default. -/
def globalNetwork (routes : List (Str × RouteVal)) : Str :=
  match lookupRoute routes networkKey with
  | some (.strVal s) => jsOrStr s DEFAULT_NETWORK
  | _ => DEFAULT_NETWORK

/-- Normalisation of one route entry (first pass of `computeRoutePatterns`):
a bare string/number price becomes `{ price, network: routes.network ||
"bch" }`; an object value is spread over `{ network: routes.network ||
"bch" }`, so its own `network` property, when present, wins. -/
def normalizeRouteValue (g : Str) (v : RouteVal) : RouteConfig :=
  match v with
  | .strVal s => { price := some (.str s), network := some g }
  | .numVal x => { price := some (.num x), network := some g }
  | .objVal cfg => { cfg with network := some (cfg.network.getD g) }

/-- First pass of `computeRoutePatterns`: drop the reserved `network` key
and normalise the remaining entries, keeping their order. -/
def normalizedRoutes (routes : List (Str × RouteVal)) : List (Str × RouteConfig) :=
  routes.filterMap (fun e =>
    if e.1 = networkKey then none
    else some (e.1, normalizeRouteValue (globalNetwork routes) e.2))

/-- Leading field of `pattern.split(/\s+/)` (`parts[0]`): the maximal
leading run of non-whitespace characters, empty when the pattern starts
with whitespace. -/
def splitTok0 (s : Str) : Str := s.takeWhile (fun c => !jsWhitespace c)

/-- Second field of `pattern.split(/\s+/)` (`parts[1]`): the run after the
first whitespace run.  It is empty both for a trailing empty field and when
no second field exists; the middleware reads it only through `||`, which
treats the empty string and `undefined` alike. -/
def splitTok1 (s : Str) : Str :=
  ((s.dropWhile (fun c => !jsWhitespace c)).dropWhile jsWhitespace).takeWhile
    (fun c => !jsWhitespace c)

/-- Compilation failures: the `Invalid route pattern` error thrown by
`computeRoutePatterns`, and a regex-syntax failure for a translated source
outside the recognised dialect (`new RegExp` would throw on such sources,
e.g. a stray unclosed `[`). -/
inductive CompileErr where
  | invalidRoutePattern (pattern : Str)
  | invalidRegex (pattern : Str)
deriving DecidableEq

/-- The two fields of the pattern key the middleware reads
(`pattern.includes(' ') ? pattern.split(/\s+/) : ['*', pattern]`). -/
def splitParts (pattern : Str) : Str × Str :=
  if pattern.contains ' ' then (splitTok0 pattern, splitTok1 pattern)
  else (['*'], pattern)

/-- Compile one normalised route entry (the body of the second map in
`computeRoutePatterns`): `verb = (parts[0] || '*').toUpperCase()`,
`path = parts[1] || parts[0]`, throw when the path is empty, and translate
the path to an anchored case-insensitive regex. -/
def compileRoute (pattern : Str) (routeConfig : RouteConfig) :
    Except CompileErr (CompiledPattern RouteConfig) :=
  if jsOrStr (splitParts pattern).2 (splitParts pattern).1 = [] then
    .error (.invalidRoutePattern pattern)
  else
    match parseRegexSrc (pathToRegexSrc (jsOrStr (splitParts pattern).2 (splitParts pattern).1)) with
    | none => .error (.invalidRegex pattern)
    | some toks =>
        .ok { verb := jsToUpper (jsOrStr (splitParts pattern).1 ['*'])
              src := pathToRegexSrc (jsOrStr (splitParts pattern).2 (splitParts pattern).1)
              toks := toks
              config := routeConfig }

/-- Sequential compilation of all entries, stopping at the first error (the
JavaScript `map` throws out of the whole call). -/
def compileAll (entries : List (Str × RouteConfig)) :
    Except CompileErr (List (CompiledPattern RouteConfig)) :=
  match entries with
  | [] => .ok []
  | (p, cfg) :: rest =>
      match compileRoute p cfg with
      | .error e => .error e
      | .ok c =>
          match compileAll rest with
          | .error e => .error e
          | .ok cs => .ok (c :: cs)

/-- `computeRoutePatterns`. -/
def computeRoutePatterns (routes : List (Str × RouteVal)) :
    Except CompileErr (List (CompiledPattern RouteConfig)) :=
  compileAll (normalizedRoutes routes)

/-- Keep the prefix before the first `?` or `#`
(`path.split(/[?#]/)[0]`). -/
def stripQueryAndHash (s : Str) : Str := s.takeWhile (fun c => c ≠ '?' && c ≠ '#')

/-- Percent-escape scan: each `%XX` becomes a byte, any other character
passes through, and a `%` not followed by two hex digits is a `URIError`
(`none`). -/
def percentScan : Str → Option (List (ℕ ⊕ Char))
  | [] => some []
  | '%' :: h1 :: h2 :: rest =>
      match hexDigitVal h1, hexDigitVal h2 with
      | some a, some b => (percentScan rest).map (fun l => .inl (a * 16 + b) :: l)
      | _, _ => none
  | ['%'] => none
  | ['%', _] => none
  | c :: rest => (percentScan rest).map (fun l => .inr c :: l)

/-- UTF-8 continuation byte check. -/
def isCont (b : ℕ) : Bool := 0x80 ≤ b && b ≤ 0xBF

/-- Assemble scanned escape bytes into characters, enforcing strict UTF-8
as the `Decode` algorithm of ECMA-262 does: a multi-byte sequence must come
entirely from escapes, be shortest-form, and not encode a surrogate. -/
def utf8Assemble : List (ℕ ⊕ Char) → Option Str
  | [] => some []
  | .inr c :: rest => (utf8Assemble rest).map (fun l => c :: l)
  | .inl b :: rest =>
      if b ≤ 0x7F then (utf8Assemble rest).map (fun l => Char.ofNat b :: l)
      else if b < 0xC2 then none
      else if b ≤ 0xDF then
        match rest with
        | .inl b2 :: rest2 =>
            if isCont b2 then
              (utf8Assemble rest2).map (fun l => Char.ofNat ((b - 0xC0) * 64 + (b2 - 0x80)) :: l)
            else none
        | _ => none
      else if b ≤ 0xEF then
        match rest with
        | .inl b2 :: .inl b3 :: rest2 =>
            if (if b = 0xE0 then 0xA0 else 0x80) ≤ b2 ∧ b2 ≤ (if b = 0xED then 0x9F else 0xBF) ∧
                isCont b3 then
              (utf8Assemble rest2).map
                (fun l => Char.ofNat ((b - 0xE0) * 4096 + (b2 - 0x80) * 64 + (b3 - 0x80)) :: l)
            else none
        | _ => none
      else if b ≤ 0xF4 then
        match rest with
        | .inl b2 :: .inl b3 :: .inl b4 :: rest2 =>
            if (if b = 0xF0 then 0x90 else 0x80) ≤ b2 ∧ b2 ≤ (if b = 0xF4 then 0x8F else 0xBF) ∧
                isCont b3 ∧ isCont b4 then
              (utf8Assemble rest2).map
                (fun l => Char.ofNat
                  ((b - 0xF0) * 262144 + (b2 - 0x80) * 4096 + (b3 - 0x80) * 64 + (b4 - 0x80)) :: l)
            else none
        | _ => none
      else none

/-- JavaScript `decodeURIComponent`; `none` models the thrown `URIError`. -/
def decodeURIComponent (s : Str) : Option Str :=
  match percentScan s with
  | none => none
  | some items => utf8Assemble items

/-- Collapse backslashes to slashes (`.replace(/\\/g, '/')`). -/
def backslashToSlash (s : Str) : Str := s.map (fun c => if c = '\\' then '/' else c)

/-- Collapse runs of slashes (`.replace(/\/+/g, '/')`); the flag records
whether the previous character was a slash. -/
def collapseSlashesGo : Str → Bool → Str
  | [], _ => []
  | c :: rest, prev =>
      if c = '/' then
        if prev then collapseSlashesGo rest true else '/' :: collapseSlashesGo rest true
      else c :: collapseSlashesGo rest false

/-- Collapse runs of slashes. -/
def collapseSlashes (s : Str) : Str := collapseSlashesGo s false

/-- Strip trailing slashes (`.replace(/(.+?)\/+$/, '$1')`): remove the
maximal trailing run of slashes when at least one character precedes it; a
string consisting only of slashes keeps a single one (the lazy `(.+?)`
must consume at least one character), and a lone `/` is unchanged. -/
def stripTrailingSlashes (s : Str) : Str :=
  let k := (s.reverse.takeWhile (fun c => c = '/')).length
  if k = 0 then s
  else if k = s.length then ['/']
  else s.take (s.length - k)

/-- Path normalisation performed by `findMatchingRoute` before matching;
`none` models the caught `URIError` (the `catch` returns `undefined`). -/
def normalizePath (path : Str) : Option Str :=
  match decodeURIComponent (stripQueryAndHash path) with
  | none => none
  | some decodedPath =>
      some (stripTrailingSlashes (collapseSlashes (backslashToSlash decodedPath)))

/-- The candidate filter of `findMatchingRoute`: the compiled regex matches
the normalised path and the verb is `*` or equals the uppercased method. -/
def candidateRoutes {α : Type} (routePatterns : List (CompiledPattern α))
    (normalizedPath method : Str) : List (CompiledPattern α) :=
  routePatterns.filter (fun rp =>
    rmatch rp.toks normalizedPath && (rp.verb = ['*'] || jsToUpper method = rp.verb))

/-- The `reduce` of `findMatchingRoute`: keep the pattern whose regex
source is longer, preferring the earlier one on ties. -/
def pickLongest {α : Type} (c : CompiledPattern α) (cs : List (CompiledPattern α)) :
    CompiledPattern α :=
  cs.foldl (fun a b => if b.src.length > a.src.length then b else a) c

/-- `findMatchingRoute`. -/
def findMatchingRoute {α : Type} (routePatterns : List (CompiledPattern α))
    (path method : Str) : Option (CompiledPattern α) :=
  match normalizePath path with
  | none => none
  | some normalizedPath =>
      match candidateRoutes routePatterns normalizedPath method with
      | [] => none
      | c :: cs => some (pickLongest c cs)

/-- Error message thrown by `resolveMinAmountRequired`. -/
def minAmountErrorMsg : Str := "minAmountRequired must be a positive number".data

/-- Satoshi-unit suffix test (`/sat(s|oshis)?$/i`): ends with `sat`,
`sats` or `satoshis`, case-insensitively. -/
def hasSatSuffix (s : Str) : Bool :=
  let low := s.map jsLowerChar
  "sat".data.isSuffixOf low || "sats".data.isSuffixOf low || "satoshis".data.isSuffixOf low

/-- All-digits test (`/^[0-9]+$/u`). -/
def allDigits (s : Str) : Bool := s ≠ [] && s.all Char.isDigit

/-- Keep only digits and dots (`.replace(/[^0-9.]/g, '')`). -/
def stripNonNumeric (s : Str) : Str := s.filter (fun c => c.isDigit || c = '.')

/-- `resolveMinAmountRequired`: derive the minimum satoshis for a route.
The thrown `Error` is the `.error` case; the returned JavaScript number is
an integer on every path (`Math.floor` or the integer default). -/
def resolveMinAmountRequired (routeConfig : RouteConfig) : Except Str ℤ :=
  match routeConfig.minAmountRequired with
  | some v =>
      match jsToNumber v with
      | .num d => if d.nonposb then .error minAmountErrorMsg else .ok d.floor
      | _ => .error minAmountErrorMsg
  | none =>
      match routeConfig.price with
      | some (.num (.num d)) => if d.posb then .ok d.floor else .ok DEFAULT_MIN_AMOUNT
      | some (.num _) => .ok DEFAULT_MIN_AMOUNT
      | some (.str s) =>
          match jsStringToNumber (stripNonNumeric (jsTrim s)) with
          | .num d =>
              if d.posb && (hasSatSuffix (jsTrim s) || allDigits (jsTrim s)) then .ok d.floor
              else .ok DEFAULT_MIN_AMOUNT
          | _ => .ok DEFAULT_MIN_AMOUNT
      | none => .ok DEFAULT_MIN_AMOUNT

/-- The part of an Express request the middleware reads.  `xPaymentHeader`
is the case-insensitive `req.header` lookup of `X-PAYMENT`. -/
structure Request where
  path : Str
  method : Str
  protocol : Str
  host : Str
  xPaymentHeader : Option Str

/-- A protocol-level payment requirement, fields in the order
`buildPaymentRequirements` writes them.  Fields copied from the dynamic
route config keep their JSON type. -/
structure PaymentRequirement where
  scheme : Str
  network : Str
  minAmountRequired : Str
  resource : Str
  description : Json
  mimeType : Json
  payTo : Str
  maxTimeoutSeconds : Json
  asset : Json
  outputSchema : Json
  extra : Json

/-- The object `routeConfig.config || \x7b\x7d` is destructured from:
`none` when the config is absent or falsy. -/
def configObj (routeConfig : RouteConfig) : Option Json :=
  match routeConfig.config with
  | some j => if jTruthy j then some j else none
  | none => none

/-- Destructuring with a default (`const \x7b f = d \x7d = cfg`): the
default applies when the property is absent, not when it is `null`. -/
def jGetD (cfg : Option Json) (k : Str) (d : Json) : Json :=
  match cfg with
  | none => d
  | some j => (jGet j k).getD d

/-- Optional-chained `routeConfig?.config?.resource` when it is a string. -/
def configResource (routeConfig : RouteConfig) : Option Str :=
  match routeConfig.config with
  | some j =>
      match jGet j "resource".data with
      | some (.str s) => some s
      | _ => none
  | none => none

/-- `buildPaymentRequirements`: expand the matched route's config into the
single-element requirements list; the `.error` case is the `InvalidAmount`
error thrown out of `resolveMinAmountRequired`. -/
def buildPaymentRequirements (payTo : Str) (routeConfig : RouteConfig) (req : Request) :
    Except Str (List PaymentRequirement) :=
  match resolveMinAmountRequired routeConfig with
  | .error e => .error e
  | .ok minAmountRequired =>
      let network := jsOrStr (routeConfig.network.getD []) DEFAULT_NETWORK
      let cfg := configObj routeConfig
      let discoverable := jGetD cfg "discoverable".data (.bool true)
      let resource := (configResource routeConfig).getD
        (req.protocol ++ "://".data ++ req.host ++ req.path)
      .ok [{ scheme := "utxo".data
             network := network
             minAmountRequired := jsIntToString minAmountRequired
             resource := resource
             description := jGetD cfg "description".data (.str [])
             mimeType := jGetD cfg "mimeType".data (.str [])
             payTo := payTo
             maxTimeoutSeconds := jGetD cfg "maxTimeoutSeconds".data (.num ⟨60, 0⟩)
             asset := jGetD cfg "asset".data (.str DEFAULT_ASSET)
             outputSchema := jsOrJson (cfg.bind (fun j => jGet j "outputSchema".data))
               (.obj [("input".data, .obj
                 [("type".data, .str "http".data),
                  ("method".data, .str (jsToUpper req.method)),
                  ("discoverable".data, discoverable)])])
             extra := jGetD cfg "extra".data (.obj []) }]

/-- Decode failures of `decodePaymentHeader`: the `SyntaxError` of
`JSON.parse`, the `Missing required field` error thrown by the field loop,
and the `TypeError` of reading a property of `null` (a header whose JSON
text is `null`). -/
inductive DecodeErr where
  | malformed
  | missingField (f : Str)
  | nullAccess (f : Str)
deriving DecidableEq

/-- Message texts of decode failures as surfaced in the 402 `error` field.
The `SyntaxError` and `TypeError` texts are engine-specific; fixed
representative texts stand in for them (no claim depends on their exact
wording).  The missing-field message is produced by the middleware itself. -/
def DecodeErr.message : DecodeErr → Str
  | .malformed => "Unexpected token in JSON".data
  | .missingField f => "Missing required field in payment payload: ".data ++ f
  | .nullAccess f => "Cannot read properties of null, reading ".data ++ f

/-- The four required payment fields, in the order the validation loop
checks them. -/
def requiredFields : List Str :=
  ["x402Version".data, "scheme".data, "network".data, "payload".data]

/-- First required field whose value is nullish (absent, or present with
value `null`), in loop order. -/
def firstNullishField (j : Json) : Option Str :=
  requiredFields.find? (fun f => isNullish (jGet j f))

/-- `decodePaymentHeader`: `JSON.parse` the header, reject when a required
field is nullish (reading a field of a `null` payload throws a `TypeError`
at the first loop iteration instead), then overwrite `x402Version` with the
server's version. -/
def decodePaymentHeader (headerValue : Str) (x402Version : Dec) : Except DecodeErr Json :=
  match jsonParse headerValue with
  | none => .error .malformed
  | some .null => .error (.nullAccess "x402Version".data)
  | some decodedPayment =>
      match firstNullishField decodedPayment with
      | some f => .error (.missingField f)
      | none => .ok (jSet decodedPayment "x402Version".data (.num x402Version))

/-- The server's supported protocol version (`const x402Version = 1` in the
middleware factory). -/
def x402Version : Dec := ⟨1, 0⟩

/-- Body of a 402 challenge: `\x7b x402Version, error, accepts, payer? \x7d`.
The `payer` field is only present on the verification-rejected path. -/
structure Body402 where
  x402Version : Dec
  error : Json
  accepts : List PaymentRequirement
  payer : Option Json

/-- Outcome of one request through the middleware: control passed to
`next` with nothing written, exactly one 402 JSON response, or an exception
escaping the handler (nothing written and `next` not called). -/
inductive Outcome where
  | next
  | resp402 (body : Body402)
  | thrown (msg : Str)

/-- The facilitator's HTTP response as the middleware observes it, with the
result of `response.json()` (which can itself reject). -/
structure FetchResponse where
  ok : Bool
  status : ℕ
  statusText : Str
  jsonBody : Except Str Json

/-- Behaviour of the injected transport during one request: whether a fetch
implementation exists (caller-supplied or process-global), the outcome of
`resolveFacilitatorHeaders` (its value does not influence the outcome), and
the outcome of the `fetch` call.  Rejections carry their `error.message`. -/
structure TransportWorld where
  hasFetch : Bool
  authHeaders : Except Str Unit
  fetchResult : Except Str FetchResponse

/-- Message of the error thrown by `resolveFetch`. -/
def fetchRequiredMsg : Str :=
  "fetch implementation is required for facilitator verification".data

/-- Default catch-all message (`error.message || 'Payment verification
failed'`). -/
def verificationFailedMsg : Str := "Payment verification failed".data

/-- Strict equality `stringField === decodedProperty` between a
requirement's string field and a dynamic property. -/
def jsStrictEqStr (v : Option Json) (s : Str) : Bool :=
  match v with
  | some (.str t) => t = s
  | _ => false

/-- Truthiness of a possibly-undefined property. -/
def jTruthyOpt : Option Json → Bool
  | none => false
  | some v => jTruthy v

/-- `paymentMiddlewareHandler`: the per-request closure returned by
`paymentMiddleware`, with the injected transport behaviour made explicit.
Every `res.status(402).json(...)`-then-return of the source is a
`.resp402`; the final `next()` is `.next`; an exception leaving the handler
is `.thrown`. -/
def paymentMiddlewareHandler (payTo : Str)
    (routePatterns : List (CompiledPattern RouteConfig))
    (w : TransportWorld) (req : Request) : Outcome :=
  match findMatchingRoute routePatterns req.path req.method with
  | none => .next
  | some matchingRoute =>
      match buildPaymentRequirements payTo matchingRoute.config req with
      | .error e => .thrown e
      | .ok paymentRequirements =>
          if req.xPaymentHeader.getD [] = [] then
            .resp402 { x402Version := x402Version
                       error := .str "X-PAYMENT header is required".data
                       accepts := paymentRequirements, payer := none }
          else
            match decodePaymentHeader (req.xPaymentHeader.getD []) x402Version with
            | .error e =>
                .resp402 { x402Version := x402Version
                           error := .str (jsOrStr e.message
                             "Invalid or malformed payment header".data)
                           accepts := paymentRequirements, payer := none }
            | .ok decodedPayment =>
                match paymentRequirements.find? (fun requirement =>
                    jsStrictEqStr (jGet decodedPayment "scheme".data) requirement.scheme &&
                    jsStrictEqStr (jGet decodedPayment "network".data) requirement.network) with
                | none =>
                    .resp402 { x402Version := x402Version
                               error := .str "Unable to find matching payment requirements".data
                               accepts := paymentRequirements, payer := none }
                | some _ =>
                    if !w.hasFetch then
                      .resp402 { x402Version := x402Version
                                 error := .str (jsOrStr fetchRequiredMsg verificationFailedMsg)
                                 accepts := paymentRequirements, payer := none }
                    else
                      match w.authHeaders with
                      | .error msg =>
                          .resp402 { x402Version := x402Version
                                     error := .str (jsOrStr msg verificationFailedMsg)
                                     accepts := paymentRequirements, payer := none }
                      | .ok _ =>
                          match w.fetchResult with
                          | .error msg =>
                              .resp402 { x402Version := x402Version
                                         error := .str (jsOrStr msg verificationFailedMsg)
                                         accepts := paymentRequirements, payer := none }
                          | .ok response =>
                              if !response.ok then
                                .resp402 { x402Version := x402Version
                                           error := .str (jsOrStr
                                             ("Facilitator verification failed: ".data ++
                                               natToStr response.status ++ [' '] ++
                                               response.statusText) verificationFailedMsg)
                                           accepts := paymentRequirements, payer := none }
                              else
                                match response.jsonBody with
                                | .error msg =>
                                    .resp402 { x402Version := x402Version
                                               error := .str (jsOrStr msg verificationFailedMsg)
                                               accepts := paymentRequirements, payer := none }
                                | .ok verificationResult =>
                                    if !jTruthyOpt (jGet verificationResult "isValid".data) then
                                      .resp402 { x402Version := x402Version
                                                 error := jsOrJson
                                                   (jGet verificationResult "invalidReason".data)
                                                   (.str verificationFailedMsg)
                                                 accepts := paymentRequirements
                                                 payer := some (jsOrJson
                                                   (jGet verificationResult "payer".data)
                                                   (.str [])) }
                                    else .next

/-- Construction-time failures of `paymentMiddleware`: the missing-`payTo`
guard and a route-compilation error. -/
inductive FactoryErr where
  | payToRequired
  | compileFailed (e : CompileErr)

/-- `paymentMiddleware`: validate `payTo`, compile the route patterns
eagerly, and return the request handler closed over them. -/
def paymentMiddleware (payTo : Str) (routes : List (Str × RouteVal)) :
    Except FactoryErr (TransportWorld → Request → Outcome) :=
  if payTo = [] then .error .payToRequired
  else
    match computeRoutePatterns routes with
    | .error e => .error (.compileFailed e)
    | .ok routePatterns => .ok (paymentMiddlewareHandler payTo routePatterns)

/-- The route map used by the repository's unit tests. -/
def baseRoutes : List (Str × RouteVal) :=
  [(networkKey, .strVal "bch".data),
   ("GET /protected".data, .objVal { price := some (.num (.num ⟨1500, 0⟩)) }),
   ("/open".data, .numVal (.num ⟨1200, 0⟩))]

/-- The pay-to address used by the repository's unit tests. -/
def payToAddress : Str := "bitcoincash:qq123exampleaddress0000000000000000".data

/-- The compiled patterns of `baseRoutes` (the `Except` is peeled off so
later fixtures can index into the list). -/
def basePatterns : List (CompiledPattern RouteConfig) :=
  (computeRoutePatterns baseRoutes).toOption.getD []

/-- A transport world in which verification succeeds. -/
def okWorld : TransportWorld :=
  { hasFetch := true, authHeaders := .ok ()
    fetchResult := .ok { ok := true, status := 200, statusText := "OK".data
                         jsonBody := .ok (.obj [("isValid".data, .bool true)]) } }

/-- The valid payment header of the unit tests. -/
def validPaymentHeader : Str :=
  "\x7b\"x402Version\":1,\"scheme\":\"utxo\",\"network\":\"bch\",\"payload\":\x7b\"some\":\"data\"\x7d\x7d".data

/-- A request for `/protected` carrying the given header. -/
def protectedReq (h : Option Str) : Request :=
  { path := "/protected".data, method := "GET".data, protocol := "http".data
    host := "example.com".data, xPaymentHeader := h }

/-- The earliest element of maximal `src` length: the specification-side
description of the `reduce` in `findMatchingRoute`.  Scanning from the
right, a later element survives only while it is strictly longer than
everything before it. -/
def firstLongest {α : Type} : List (CompiledPattern α) → Option (CompiledPattern α)
  | [] => none
  | c :: cs =>
      match firstLongest cs with
      | none => some c
      | some m => some (if m.src.length > c.src.length then m else c)

/-- The overlapping-pattern example routes of the spec (§8). -/
def overlappingRoutes : List (Str × RouteVal) :=
  [("GET /a/*".data, .objVal { price := some (.num (.num ⟨900, 0⟩)) }),
   ("GET /a/reports".data, .objVal { price := some (.num (.num ⟨1400, 0⟩)) })]

/-- The compiled patterns of `overlappingRoutes`. -/
def overlappingPatterns : List (CompiledPattern RouteConfig) :=
  (computeRoutePatterns overlappingRoutes).toOption.getD []

/-- The compiled `GET /a/reports` pattern. -/
def reportsPattern : CompiledPattern RouteConfig :=
  { verb := "GET".data
    src := "^\\/a\\/reports$".data
    toks := [.lit '/', .lit 'a', .lit '/', .lit 'r', .lit 'e', .lit 'p', .lit 'o',
             .lit 'r', .lit 't', .lit 's']
    config := { price := some (.num (.num ⟨1400, 0⟩)), network := some "bch".data } }

/-- The compiled `GET /a/*` pattern. -/
def wildcardPattern : CompiledPattern RouteConfig :=
  { verb := "GET".data
    src := "^\\/a\\/.*?$".data
    toks := [.lit '/', .lit 'a', .lit '/', .anyLazy]
    config := { price := some (.num (.num ⟨900, 0⟩)), network := some "bch".data } }

/-- Routes producing two candidates whose regex sources have equal length:
`GET /AB` and `GET /ab` compile to sources of length 6 and, matching being
case-insensitive, both match the path `/ab`. -/
def tieRoutes : List (Str × RouteVal) :=
  [("GET /AB".data, .objVal { price := some (.num (.num ⟨100, 0⟩)) }),
   ("GET /ab".data, .objVal { price := some (.num (.num ⟨200, 0⟩)) })]

/-- The compiled patterns of `tieRoutes`. -/
def tiePatterns : List (CompiledPattern RouteConfig) :=
  (computeRoutePatterns tieRoutes).toOption.getD []

/-- The `GET /protected` route config after normalisation. -/
def protConfig : RouteConfig :=
  { price := some (.num (.num ⟨1500, 0⟩)), network := some "bch".data }

/-- The single requirement `buildPaymentRequirements` produces for the
`GET /protected` fixture. -/
def protectedRequirement : PaymentRequirement :=
  { scheme := "utxo".data, network := "bch".data, minAmountRequired := "1500".data
    resource := "http://example.com/protected".data
    description := .str [], mimeType := .str [], payTo := payToAddress
    maxTimeoutSeconds := .num ⟨60, 0⟩, asset := .str DEFAULT_ASSET
    outputSchema := .obj [("input".data, .obj
      [("type".data, .str "http".data), ("method".data, .str "GET".data),
       ("discoverable".data, .bool true)])]
    extra := .obj [] }

/-- The requirements list of the `GET /protected` fixture. -/
def protectedRequirements : List PaymentRequirement := [protectedRequirement]

/-- The decoded form of `validPaymentHeader` after the version overwrite. -/
def decodedValidPayment : Json :=
  .obj [("x402Version".data, .num ⟨1, 0⟩), ("scheme".data, .str "utxo".data),
        ("network".data, .str "bch".data),
        ("payload".data, .obj [("some".data, .str "data".data)])]

/-- A payment header whose `payload` field is present but `null`. -/
def nullPayloadHeader : Str :=
  "\x7b\"x402Version\":1,\"scheme\":\"utxo\",\"network\":\"bch\",\"payload\":null\x7d".data

/-- A transport world with no fetch implementation at all. -/
def noFetchWorld : TransportWorld :=
  { hasFetch := false, authHeaders := .ok (), fetchResult := .error "unused".data }

/-- A transport world whose facilitator rejects the payment with an empty
`invalidReason`. -/
def emptyReasonWorld : TransportWorld :=
  { hasFetch := true, authHeaders := .ok ()
    fetchResult := .ok { ok := true, status := 200, statusText := "OK".data
                         jsonBody := .ok (.obj
                           [("isValid".data, .bool false),
                            ("invalidReason".data, .str []),
                            ("payer".data, .str "payer-id".data)]) } }

/-- A transport world whose facilitator rejects the payment with a reason
and a payer (the unit-test fixture). -/
def rejectWorld : TransportWorld :=
  { hasFetch := true, authHeaders := .ok ()
    fetchResult := .ok { ok := true, status := 200, statusText := "OK".data
                         jsonBody := .ok (.obj
                           [("isValid".data, .bool false),
                            ("invalidReason".data, .str "insufficient amount".data),
                            ("payer".data, .str "payer-id".data)]) } }

/-- The `Admitted` state of the request state machine (§4.6): the request
matched a priced route, its requirements were built, it carried a decodable
payment header matching a requirement, and the facilitator exchange
completed with a truthy `isValid`. -/
def isAdmitted (payTo : Str) (routePatterns : List (CompiledPattern RouteConfig))
    (w : TransportWorld) (req : Request) : Bool :=
  match findMatchingRoute routePatterns req.path req.method with
  | none => false
  | some matchingRoute =>
      match buildPaymentRequirements payTo matchingRoute.config req with
      | .error _ => false
      | .ok paymentRequirements =>
          if req.xPaymentHeader.getD [] = [] then false
          else
            match decodePaymentHeader (req.xPaymentHeader.getD []) x402Version with
            | .error _ => false
            | .ok decodedPayment =>
                match paymentRequirements.find? (fun requirement =>
                    jsStrictEqStr (jGet decodedPayment "scheme".data) requirement.scheme &&
                    jsStrictEqStr (jGet decodedPayment "network".data) requirement.network) with
                | none => false
                | some _ =>
                    if !w.hasFetch then false
                    else
                      match w.authHeaders with
                      | .error _ => false
                      | .ok _ =>
                          match w.fetchResult with
                          | .error _ => false
                          | .ok response =>
                              if !response.ok then false
                              else
                                match response.jsonBody with
                                | .error _ => false
                                | .ok verificationResult =>
                                    jTruthyOpt (jGet verificationResult "isValid".data)

/-- Routes whose single entry carries the invalid amount configuration
`minAmountRequired: 0`. -/
def badAmountRoutes : List (Str × RouteVal) :=
  [("GET /p".data, .objVal { minAmountRequired := some (.num (.num ⟨0, 0⟩)) })]

/-- Compiled patterns of `badAmountRoutes` (compilation succeeds: amounts
are not validated at construction time). -/
def badAmountPatterns : List (CompiledPattern RouteConfig) :=
  (computeRoutePatterns badAmountRoutes).toOption.getD []

/-- The compiled `GET /protected` pattern of `baseRoutes`. -/
def protPattern : CompiledPattern RouteConfig :=
  { verb := "GET".data, src := "^\\/protected$".data
    toks := [.lit '/', .lit 'p', .lit 'r', .lit 'o', .lit 't', .lit 'e', .lit 'c',
             .lit 't', .lit 'e', .lit 'd']
    config := protConfig }

example : jsonParse "null".data = some .null := by rfl

example : jsonParse "\x7b\"a\":1,\"b\":\"x\"\x7d".data =
    some (.obj [("a".data, .num ⟨1, 0⟩), ("b".data, .str "x".data)]) := by rfl

example : jsonParse "\x7binvalid json".data = none := by rfl

example : jsonParse " [1, true, \"a\\n\"] ".data =
    some (.arr [.num ⟨1, 0⟩, .bool true, .str ['a', '\n']]) := by rfl

example : jsonParse "-12.5e1".data = some (.num ⟨-1250, 1⟩) := by rfl

example : jsonParse "\x7b\"a\":1,\"a\":2,\"b\":0.25\x7d".data =
    some (.obj [("a".data, .num ⟨2, 0⟩), ("b".data, .num ⟨25, 2⟩)]) := by rfl

example : normalizePath "/a//b\\c/?q=1".data = some "/a/b/c".data := by rfl

example : normalizePath "/%E0%A4%A".data = none := by rfl

example : normalizePath "/%E0%A4%A4".data = some ['/', Char.ofNat 0x924] := by rfl

example : (compileRoute "GET /a/*".data {}).toOption.map (fun c => (c.verb, c.src)) =
    some ("GET".data, "^\\/a\\/.*?$".data) := by rfl

example : (compileRoute "GET /a/reports".data {}).toOption.map (fun c => c.src.length) =
    some 14 := by rfl

example : (compileRoute "/u/[id]".data {}).toOption.map (fun c => (c.verb, c.src, c.toks)) =
    some ("*".data, "^\\/u\\/[^\\/]+$".data, [.lit '/', .lit 'u', .lit '/', .segParam]) := by rfl

example : compileRoute " ".data {} = .error (.invalidRoutePattern [' ']) := by rfl

example : rmatch [.lit '/', .lit 'a', .lit '/', .anyLazy] "/a/reports".data = true := by rfl

example : rmatch [.lit '/', .lit 'u', .lit '/', .segParam] "/u/xy".data = true := by rfl

example : rmatch [.lit '/', .lit 'u', .lit '/', .segParam] "/u/x/y".data = false := by rfl

example : rmatch [.lit '/', .lit 'P', .lit 'x'] "/pX".data = true := by rfl

example : (computeRoutePatterns baseRoutes).toOption.map (List.map (fun c => (c.verb, c.src))) =
    some [("GET".data, "^\\/protected$".data), ("*".data, "^\\/open$".data)] := by rfl

example : (findMatchingRoute basePatterns "/protected".data "get".data).map
    (fun c => c.config.price) = some (some (.num (.num ⟨1500, 0⟩))) := by rfl

example : findMatchingRoute basePatterns "/unknown".data "GET".data = none := by rfl

example : paymentMiddlewareHandler payToAddress basePatterns okWorld
    (protectedReq (some validPaymentHeader)) = .next := by rfl

example : paymentMiddlewareHandler payToAddress basePatterns okWorld
    { protectedReq none with path := "/unmatched".data } = .next := by rfl

example :
    (match paymentMiddlewareHandler payToAddress basePatterns okWorld (protectedReq none) with
     | .resp402 b => some (b.error, (b.accepts.map (fun r => (r.payTo, r.minAmountRequired))))
     | _ => none) =
    some (.str "X-PAYMENT header is required".data,
      [(payToAddress, "1500".data)]) := by rfl

example :
    (match paymentMiddlewareHandler payToAddress basePatterns okWorld
        (protectedReq (some "\x7binvalid json".data)) with
     | .resp402 b => some b.error
     | _ => none) = some (.str "Unexpected token in JSON".data) := by rfl

theorem firstLongest_nil_iff {α : Type} (l : List (CompiledPattern α)) :
    firstLongest l = none ↔ l = [] := by
  cases l with
  | nil => simp [firstLongest]
  | cons c cs =>
      simp only [firstLongest]
      cases firstLongest cs <;> simp

theorem firstLongest_cons_cons {α : Type} (c b : CompiledPattern α) (bs : List (CompiledPattern α)) :
    firstLongest (c :: b :: bs) =
      firstLongest ((if b.src.length > c.src.length then b else c) :: bs) := by
  cases h : firstLongest bs with
  | none => simp [firstLongest, h]
  | some m =>
      simp only [firstLongest, h]
      split_ifs <;> first | rfl | omega

theorem pickLongest_eq_firstLongest {α : Type} :
    ∀ (cs : List (CompiledPattern α)) (c : CompiledPattern α),
      some (pickLongest c cs) = firstLongest (c :: cs)
  | [], c => by simp [pickLongest, firstLongest]
  | b :: bs, c => by
      have ih := pickLongest_eq_firstLongest bs (if b.src.length > c.src.length then b else c)
      rw [firstLongest_cons_cons, ← ih]
      simp only [pickLongest, List.foldl_cons]

theorem firstLongest_spec {α : Type} :
    ∀ (l : List (CompiledPattern α)) (m : CompiledPattern α),
      firstLongest l = some m →
      m ∈ l ∧ (∀ d ∈ l, d.src.length ≤ m.src.length) ∧
        ∃ i : ℕ, l[i]? = some m ∧
          ∀ j : ℕ, j < i → ∀ d : CompiledPattern α, l[j]? = some d →
            d.src.length < m.src.length
  | [], m => by simp [firstLongest]
  | c :: cs, m => by
      intro h
      cases hcs : firstLongest cs with
      | none =>
          simp only [firstLongest, hcs] at h
          obtain rfl : c = m := by injection h
          obtain rfl : cs = [] := (firstLongest_nil_iff cs).mp hcs
          refine ⟨List.mem_singleton_self _, ?_, 0, by simp, ?_⟩
          · intro d hd
            rw [List.mem_singleton.mp hd]
          · intro j hj d _
            omega
      | some m1 =>
          simp only [firstLongest, hcs] at h
          obtain ⟨hmem1, hbound1, i1, hidx1, hlt1⟩ := firstLongest_spec cs m1 hcs
          by_cases hgt : m1.src.length > c.src.length
          · rw [if_pos hgt] at h
            obtain rfl : m1 = m := by injection h
            refine ⟨List.mem_cons_of_mem c hmem1, ?_, i1 + 1, ?_, ?_⟩
            · intro d hd
              rcases List.mem_cons.mp hd with rfl | hd1
              · omega
              · exact hbound1 d hd1
            · simpa using hidx1
            · intro j hj d hd
              cases j with
              | zero =>
                  simp only [List.getElem?_cons_zero] at hd
                  obtain rfl : c = d := by injection hd
                  omega
              | succ j1 =>
                  simp only [List.getElem?_cons_succ] at hd
                  exact hlt1 j1 (by omega) d hd
          · rw [if_neg hgt] at h
            obtain rfl : c = m := by injection h
            refine ⟨List.mem_cons_self _ _, ?_, 0, by simp, ?_⟩
            · intro d hd
              rcases List.mem_cons.mp hd with rfl | hd1
              · exact le_rfl
              · exact le_trans (hbound1 d hd1) (by omega)
            · intro j hj d _
              omega

theorem findMatchingRoute_eq_firstLongest {α : Type} (pats : List (CompiledPattern α))
    (path method np : Str) (h : normalizePath path = some np) :
    findMatchingRoute pats path method = firstLongest (candidateRoutes pats np method) := by
  cases hc : candidateRoutes pats np method with
  | nil => simp [findMatchingRoute, h, hc, firstLongest]
  | cons c cs =>
      simp only [findMatchingRoute, h, hc]
      exact pickLongest_eq_firstLongest cs c

/-- C5: for every pattern list and request path, when percent-decoding of
the query-stripped path fails, `findMatchingRoute` returns no match instead
of propagating the decode error (the function is total: it never throws). -/
theorem findMatchingRoute_decode_failure_soft {α : Type}
    (routePatterns : List (CompiledPattern α)) (path method : Str)
    (h : decodeURIComponent (stripQueryAndHash path) = none) :
    findMatchingRoute routePatterns path method = none := by
  unfold findMatchingRoute normalizePath
  rw [h]

theorem findMatchingRoute_decode_failure_soft_witness :
    decodeURIComponent (stripQueryAndHash "/%E0%A4%A".data) = none ∧
    findMatchingRoute ([] : List (CompiledPattern RouteConfig))
      "/%E0%A4%A".data "GET".data = none :=
  ⟨by rfl, findMatchingRoute_decode_failure_soft [] "/%E0%A4%A".data "GET".data (by rfl)⟩

/-- C4: when a candidate's compiled regex source is strictly longer than
every other candidate's, `findMatchingRoute` returns it; in particular,
with routes `GET /a/*` and `GET /a/reports`, a `GET` request for
`/a/reports` selects the `/a/reports` route (price 1400). -/
theorem findMatchingRoute_longest_source_wins :
    (∀ (α : Type) (pats : List (CompiledPattern α)) (path method np : Str)
        (c : CompiledPattern α),
      normalizePath path = some np →
      c ∈ candidateRoutes pats np method →
      (∀ d ∈ candidateRoutes pats np method, d ≠ c → d.src.length < c.src.length) →
      findMatchingRoute pats path method = some c) ∧
    ((computeRoutePatterns overlappingRoutes).toOption.map
        (fun pats => (findMatchingRoute pats "/a/reports".data "GET".data).map
          (fun c => c.config.price)) =
      some (some (some (.num (.num ⟨1400, 0⟩))))) := by
  constructor
  · intro α pats path method np c hnp hmem hmax
    rw [findMatchingRoute_eq_firstLongest pats path method np hnp]
    cases hfl : firstLongest (candidateRoutes pats np method) with
    | none =>
        rw [(firstLongest_nil_iff _).mp hfl] at hmem
        exact absurd hmem (List.not_mem_nil c)
    | some m =>
        obtain ⟨hmemm, hbound, _⟩ := firstLongest_spec _ m hfl
        by_cases heq : m = c
        · rw [heq]
        · have h1 := hmax m hmemm heq
          have h2 := hbound c hmem
          omega
  · rfl

theorem findMatchingRoute_longest_source_wins_witness :
    findMatchingRoute overlappingPatterns "/a/reports".data "GET".data =
      some reportsPattern := by
  refine findMatchingRoute_longest_source_wins.1 RouteConfig overlappingPatterns
    "/a/reports".data "GET".data "/a/reports".data reportsPattern (by rfl) ?_ ?_
  · rw [show candidateRoutes overlappingPatterns "/a/reports".data "GET".data =
      [wildcardPattern, reportsPattern] from rfl]
    exact List.Mem.tail _ (List.Mem.head _)
  · rw [show candidateRoutes overlappingPatterns "/a/reports".data "GET".data =
      [wildcardPattern, reportsPattern] from rfl]
    intro d hd hne
    rcases List.mem_cons.mp hd with rfl | hd1
    · decide
    · rw [List.mem_singleton.mp hd1] at hne
      exact absurd rfl hne

/-- C9: `findMatchingRoute` equals `firstLongest` over the candidate list,
and `firstLongest` returns the earliest element of maximal source length —
every earlier element is strictly shorter, so a later candidate replaces an
earlier one only when its source is strictly longer; ties keep the earliest. -/
theorem findMatchingRoute_tie_prefers_earliest :
    (∀ (α : Type) (pats : List (CompiledPattern α)) (path method np : Str),
        normalizePath path = some np →
        findMatchingRoute pats path method = firstLongest (candidateRoutes pats np method)) ∧
    (∀ (α : Type) (l : List (CompiledPattern α)) (m : CompiledPattern α),
        firstLongest l = some m →
        m ∈ l ∧ (∀ d ∈ l, d.src.length ≤ m.src.length) ∧
          ∃ i : ℕ, l[i]? = some m ∧
            ∀ j : ℕ, j < i → ∀ d : CompiledPattern α, l[j]? = some d →
              d.src.length < m.src.length) :=
  ⟨fun _ pats path method np h => findMatchingRoute_eq_firstLongest pats path method np h,
   fun _ l m h => firstLongest_spec l m h⟩

theorem takeWhile_not_ws_nil_of_all (m : Str) (h : ∀ x ∈ m, jsWhitespace x) :
    m.takeWhile (fun c => !jsWhitespace c) = [] := by
  cases m with
  | nil => rfl
  | cons c r =>
      have := h c (List.mem_cons_self c r)
      simp [List.takeWhile_cons, this]

theorem dropWhile_not_ws_self_of_all (m : Str) (h : ∀ x ∈ m, jsWhitespace x) :
    m.dropWhile (fun c => !jsWhitespace c) = m := by
  cases m with
  | nil => rfl
  | cons c r =>
      have := h c (List.mem_cons_self c r)
      simp [List.dropWhile_cons, this]

theorem dropWhile_ws_nil_of_all : ∀ (m : Str), (∀ x ∈ m, jsWhitespace x) →
    m.dropWhile jsWhitespace = []
  | [], _ => rfl
  | c :: r, h => by
      have hc := h c (List.mem_cons_self c r)
      rw [List.dropWhile_cons, if_pos hc]
      exact dropWhile_ws_nil_of_all r (fun x hx => h x (List.mem_cons_of_mem c hx))

theorem all_ws_of_dropWhile_takeWhile_nil : ∀ (m : Str),
    (m.dropWhile jsWhitespace).takeWhile (fun c => !jsWhitespace c) = [] →
    ∀ x ∈ m, jsWhitespace x
  | [], _, x, hx => absurd hx (List.not_mem_nil x)
  | c :: r, h, x, hx => by
      by_cases hc : jsWhitespace c
      · rw [List.dropWhile_cons, if_pos hc] at h
        rcases List.mem_cons.mp hx with rfl | hxr
        · exact hc
        · exact all_ws_of_dropWhile_takeWhile_nil r h x hxr
      · rw [List.dropWhile_cons, if_neg hc, List.takeWhile_cons] at h
        simp only [hc] at h
        exact absurd h (by simp)

/-- The set of keys `compileRoute` rejects: the key contains a space
character and consists entirely of whitespace (so both split fields are
empty and the `parts[1] || parts[0]` fallback is empty). -/
theorem compileRoute_invalid_iff (pattern : Str) (cfg : RouteConfig) :
    compileRoute pattern cfg = .error (.invalidRoutePattern pattern) ↔
      (pattern.contains ' ' = true ∧ ∀ c ∈ pattern, jsWhitespace c) := by
  cases hsp : pattern.contains ' ' with
  | false =>
      have hp : splitParts pattern = (['*'], pattern) := by
        unfold splitParts
        rw [hsp]
        rfl
      have hpath : jsOrStr (splitParts pattern).2 (splitParts pattern).1 ≠ [] := by
        rw [hp]
        by_cases hq : pattern = [] <;> simp [jsOrStr, hq]
      unfold compileRoute
      rw [if_neg hpath]
      cases hre : parseRegexSrc
          (pathToRegexSrc (jsOrStr (splitParts pattern).2 (splitParts pattern).1)) with
      | none => simp [hsp]
      | some toks => simp [hsp]
  | true =>
      have hp : splitParts pattern = (splitTok0 pattern, splitTok1 pattern) := by
        unfold splitParts
        rw [hsp]
        rfl
      unfold compileRoute
      rw [hp]
      by_cases hpath : jsOrStr (splitTok1 pattern) (splitTok0 pattern) = []
      · rw [if_pos hpath]
        have h1 : splitTok1 pattern = [] := by
          by_cases h : splitTok1 pattern = []
          · exact h
          · exact absurd hpath (by simp [jsOrStr, h])
        have h0 : splitTok0 pattern = [] := by
          unfold jsOrStr at hpath
          rw [if_pos h1] at hpath
          exact hpath
        have hd : pattern.dropWhile (fun c => !jsWhitespace c) = pattern := by
          cases hpat : pattern with
          | nil => rfl
          | cons c r =>
              rw [hpat] at h0
              unfold splitTok0 at h0
              rw [List.takeWhile_cons] at h0
              by_cases hc : jsWhitespace c
              · simp [List.dropWhile_cons, hc]
              · simp [hc] at h0
        have h1d : (pattern.dropWhile jsWhitespace).takeWhile (fun c => !jsWhitespace c) = [] := by
          have h1' := h1
          unfold splitTok1 at h1'
          rw [hd] at h1'
          exact h1'
        simp only [true_iff]
        exact ⟨by simp, all_ws_of_dropWhile_takeWhile_nil pattern h1d⟩
      · rw [if_neg hpath]
        have hne : ¬ ∀ c ∈ pattern, jsWhitespace c := by
          intro hall
          apply hpath
          have h0 := takeWhile_not_ws_nil_of_all pattern hall
          have hds := dropWhile_not_ws_self_of_all pattern hall
          have h1 : splitTok1 pattern = [] := by
            unfold splitTok1
            rw [hds, dropWhile_ws_nil_of_all pattern hall]
            rfl
          rw [h1]
          simp only [jsOrStr, if_pos rfl]
          unfold splitTok0
          exact h0
        cases hre : parseRegexSrc
            (pathToRegexSrc (jsOrStr (splitTok1 pattern) (splitTok0 pattern))) with
        | none => simp [hne]
        | some toks => simp [hne]

theorem compileAll_length : ∀ (entries : List (Str × RouteConfig))
    (pats : List (CompiledPattern RouteConfig)),
    compileAll entries = .ok pats → pats.length = entries.length
  | [], pats, h => by
      obtain rfl : ([] : List (CompiledPattern RouteConfig)) = pats := by injection h
      rfl
  | (p, cfg) :: rest, pats, h => by
      simp only [compileAll] at h
      cases hc : compileRoute p cfg with
      | error e => rw [hc] at h; exact absurd h (by simp)
      | ok c =>
          rw [hc] at h
          cases hr : compileAll rest with
          | error e => rw [hr] at h; exact absurd h (by simp)
          | ok cs =>
              rw [hr] at h
              obtain rfl : c :: cs = pats := by injection h
              simp [compileAll_length rest cs hr]

theorem filterMap_route_length (g : Str) : ∀ (l : List (Str × RouteVal)),
    (l.filterMap (fun e =>
      if e.1 = networkKey then none
      else some (e.1, normalizeRouteValue g e.2))).length =
    (l.filter (fun e => !decide (e.1 = networkKey))).length
  | [] => rfl
  | e :: rest => by
      by_cases he : e.1 = networkKey <;>
        simp [List.filterMap_cons, List.filter_cons, he, filterMap_route_length g rest]

/-- C7 (amended): compiling a single route key fails with
`InvalidRoutePattern` exactly when the key contains a space character and is
whitespace-only; and a successfully compiled route map has exactly one
pattern entry per key other than the reserved `network` key. -/
theorem computeRoutePatterns_invalid_pattern_iff :
    (∀ (pattern : Str) (cfg : RouteConfig),
        compileRoute pattern cfg = .error (.invalidRoutePattern pattern) ↔
          (pattern.contains ' ' = true ∧ ∀ c ∈ pattern, jsWhitespace c)) ∧
    (∀ (routes : List (Str × RouteVal)) (pats : List (CompiledPattern RouteConfig)),
        computeRoutePatterns routes = .ok pats →
        pats.length = (routes.filter (fun e => !decide (e.1 = networkKey))).length) := by
  constructor
  · exact compileRoute_invalid_iff
  · intro routes pats h
    rw [compileAll_length (normalizedRoutes routes) pats h]
    exact filterMap_route_length (globalNetwork routes) routes

/-- C7 counterexample: the empty key has an empty path part, yet it
compiles (to a verb-`*` wildcard pattern) instead of failing: the
`parts[1] || parts[0]` fallback substitutes `*` for the missing path. -/
theorem computeRoutePatterns_accepts_empty_key :
    computeRoutePatterns [(([] : Str), .numVal (.num ⟨1000, 0⟩))] =
      .ok [{ verb := "*".data, src := "^.*?$".data, toks := [.anyLazy],
             config := { price := some (.num (.num ⟨1000, 0⟩)),
                         network := some "bch".data } }] := by rfl

theorem computeRoutePatterns_invalid_pattern_iff_witness :
    compileRoute [' '] {} = .error (.invalidRoutePattern [' ']) ∧
    computeRoutePatterns baseRoutes = .ok basePatterns ∧
    basePatterns.length =
      (baseRoutes.filter (fun e => !decide (e.1 = networkKey))).length :=
  ⟨(computeRoutePatterns_invalid_pattern_iff.1 [' '] {}).mpr (by decide),
   by rfl,
   computeRoutePatterns_invalid_pattern_iff.2 baseRoutes basePatterns (by rfl)⟩

theorem resolveMinAmountRequired_nonneg (cfg : RouteConfig) (n : ℤ)
    (h : resolveMinAmountRequired cfg = .ok n) : 0 ≤ n := by
  have hfloor : ∀ d : Dec, 0 < d.mant → 0 ≤ d.floor := fun d hd =>
    Int.fdiv_nonneg (by omega) (pow_nonneg (by norm_num) _)
  have hdef : (0 : ℤ) ≤ DEFAULT_MIN_AMOUNT := by decide
  unfold resolveMinAmountRequired at h
  split at h
  · -- minAmountRequired present
    split at h
    · -- coerces to a finite number
      rename_i d hjv
      split at h
      · exact absurd h (by simp)
      · rename_i hle
        obtain rfl : d.floor = n := by injection h
        simp only [Dec.nonposb, decide_eq_true_eq] at hle
        exact hfloor d (by omega)
    · exact absurd h (by simp)
  · -- minAmountRequired absent: price resolution
    split at h
    · -- finite numeric price
      rename_i d hprice
      split at h
      · rename_i hpos
        obtain rfl : d.floor = n := by injection h
        simp only [Dec.posb, decide_eq_true_eq] at hpos
        exact hfloor d hpos
      · obtain rfl : DEFAULT_MIN_AMOUNT = n := by injection h
        exact hdef
    · obtain rfl : DEFAULT_MIN_AMOUNT = n := by injection h
      exact hdef
    · -- string price
      split at h
      · rename_i d hstr
        split at h
        · rename_i hc
          obtain rfl : d.floor = n := by injection h
          simp only [Bool.and_eq_true, Dec.posb, decide_eq_true_eq] at hc
          exact hfloor d hc.1
        · obtain rfl : DEFAULT_MIN_AMOUNT = n := by injection h
          exact hdef
      · obtain rfl : DEFAULT_MIN_AMOUNT = n := by injection h
        exact hdef
    · obtain rfl : DEFAULT_MIN_AMOUNT = n := by injection h
      exact hdef

/-- C3 (amended): every requirement the builder emits without error prints
`minAmountRequired` from a nonnegative integer — the amount is never
fractional-valued and never negative — and the field is the decimal digit
string of that integer whenever the amount is below `10^21`.  Zero is
possible: an accepted fractional amount below one floors to `0`.  From
`10^21` up, `String(n)` switches to exponential notation instead of a
digit string: a configured amount of `1e21` is emitted as `"1e+21"`. -/
theorem minAmountRequired_nonneg_integer_string :
    (∀ (payTo : Str) (cfg : RouteConfig) (req : Request) (l : List PaymentRequirement),
        buildPaymentRequirements payTo cfg req = .ok l →
        ∀ r ∈ l, ∃ n : ℕ, r.minAmountRequired = jsIntToString n ∧
          (n < 10 ^ 21 → r.minAmountRequired = natToStr n)) ∧
    ((buildPaymentRequirements payToAddress
        { minAmountRequired := some (.num (.num ⟨10 ^ 21, 0⟩)) }
        (protectedReq none)).toOption.map
      (List.map (fun r => r.minAmountRequired)) = some ["1e+21".data]) := by
  constructor
  · intro payTo cfg req l h r hr
    unfold buildPaymentRequirements at h
    cases hres : resolveMinAmountRequired cfg with
    | error e =>
        rw [hres] at h
        exact absurd h (by simp)
    | ok n =>
        rw [hres] at h
        have hn := resolveMinAmountRequired_nonneg cfg n hres
        injection h with hl
        rw [← hl] at hr
        refine ⟨n.natAbs, ?_, ?_⟩
        · rw [List.mem_singleton.mp hr]
          show jsIntToString n = jsIntToString (n.natAbs : ℤ)
          rw [Int.natAbs_of_nonneg hn]
        · intro hlt
          rw [List.mem_singleton.mp hr]
          show jsIntToString n = natToStr n.natAbs
          unfold jsIntToString
          rw [if_neg (by omega), if_pos hlt]
          rfl
  · rfl

example : buildPaymentRequirements payToAddress protConfig (protectedReq none) =
    .ok protectedRequirements := by rfl

example : jsStringToNumber "1e21".data = .num ⟨10 ^ 21, 0⟩ := by rfl

example : jsStringToNumber "1.2e3".data = .num ⟨12000, 1⟩ := by rfl

example : jsStringToNumber "0x10".data = .num ⟨16, 0⟩ := by rfl

example : jsStringToNumber "-0x10".data = .nan := by rfl

example : jsStringToNumber "0b101".data = .num ⟨5, 0⟩ := by rfl

example : jsStringToNumber " Infinity ".data = .posInf := by rfl

example : jsStringToNumber "1e".data = .nan := by rfl

example : jsStringToNumber "12.5".data = .num ⟨125, 1⟩ := by rfl

example : jsIntToString 0 = ['0'] := by rfl

example : jsIntToString (-1500) = "-1500".data := by rfl

example : jsIntToString (10 ^ 21) = "1e+21".data := by rfl

example : jsIntToString (1234 * 10 ^ 18) = "1.234e+21".data := by rfl

example : resolveMinAmountRequired { minAmountRequired := some (.str "1e21".data) } =
    .ok (10 ^ 21) := by rfl

theorem minAmountRequired_nonneg_integer_string_witness :
    ∃ n : ℕ, protectedRequirement.minAmountRequired = jsIntToString n ∧
      (n < 10 ^ 21 → protectedRequirement.minAmountRequired = natToStr n) :=
  minAmountRequired_nonneg_integer_string.1 payToAddress protConfig (protectedReq none)
    protectedRequirements (by rfl) protectedRequirement (List.mem_singleton_self _)

/-- C3 counterexample: `minAmountRequired: 0.5` passes the positivity check
(`0.5` is finite and positive) and then floors to `0`, so the builder
accepts the config without error and emits the amount string `"0"`, which
is not a positive integer. -/
theorem minAmountRequired_can_be_zero :
    (buildPaymentRequirements payToAddress
        { minAmountRequired := some (.num (.num ⟨5, 1⟩)) } (protectedReq none)).toOption.map
      (List.map (fun r => r.minAmountRequired)) = some [['0']] := by rfl

theorem lookupField_insertKey : ∀ (fields : List (Str × Json)) (k : Str) (v : Json),
    lookupField (insertKey fields k v) k = some v
  | [], k, v => by simp [insertKey, lookupField]
  | (k1, v1) :: rest, k, v => by
      by_cases h : k1 = k
      · simp [insertKey, lookupField, h]
      · simp [insertKey, lookupField, h, lookupField_insertKey rest k v]

theorem decode_missing_of_firstNullish (s : Str) (v : Dec) (j : Json) (f : Str)
    (hp : jsonParse s = some j) (hn : j ≠ .null) (hf : firstNullishField j = some f) :
    decodePaymentHeader s v = .error (.missingField f) := by
  unfold decodePaymentHeader
  rw [hp]
  cases j with
  | null => exact absurd rfl hn
  | bool b => dsimp only; rw [hf]
  | num d => dsimp only; rw [hf]
  | str t => dsimp only; rw [hf]
  | arr a => dsimp only; rw [hf]
  | obj o => dsimp only; rw [hf]

/-- C6 (amended): a header that is not valid JSON fails with the JSON-parse
error; a header parsing to a non-null value whose first nullish required
field is `f` fails with the missing-field error naming `f` (a header
parsing to JSON `null` instead fails with a null property access
`TypeError`, see the counterexample); and every successful decode returns a
payload whose `x402Version` equals the server-supplied version. -/
theorem decodePaymentHeader_spec :
    (∀ (s : Str) (v : Dec), jsonParse s = none →
        decodePaymentHeader s v = .error .malformed) ∧
    (∀ (s : Str) (v : Dec) (j : Json) (f : Str),
        jsonParse s = some j → j ≠ .null → firstNullishField j = some f →
        decodePaymentHeader s v = .error (.missingField f)) ∧
    (∀ (s : Str) (v : Dec) (out : Json), decodePaymentHeader s v = .ok out →
        jGet out "x402Version".data = some (.num v)) := by
  refine ⟨?_, decode_missing_of_firstNullish, ?_⟩
  · intro s v h
    unfold decodePaymentHeader
    rw [h]
  · intro s v out h
    unfold decodePaymentHeader at h
    cases hp : jsonParse s with
    | none => rw [hp] at h; exact absurd h (by simp)
    | some j =>
        rw [hp] at h
        cases j with
        | null => exact absurd h (by simp)
        | bool b =>
            dsimp only at h
            rw [show firstNullishField (Json.bool b) = some "x402Version".data from rfl] at h
            exact absurd h (by simp)
        | num d =>
            dsimp only at h
            rw [show firstNullishField (Json.num d) = some "x402Version".data from rfl] at h
            exact absurd h (by simp)
        | str t =>
            dsimp only at h
            rw [show firstNullishField (Json.str t) = some "x402Version".data from rfl] at h
            exact absurd h (by simp)
        | arr a =>
            dsimp only at h
            rw [show firstNullishField (Json.arr a) = some "x402Version".data from rfl] at h
            exact absurd h (by simp)
        | obj fields =>
            dsimp only at h
            cases hf : firstNullishField (.obj fields) with
            | some f => rw [hf] at h; exact absurd h (by simp)
            | none =>
                rw [hf] at h
                obtain rfl : jSet (.obj fields) "x402Version".data (.num v) = out := by
                  injection h
                exact lookupField_insertKey fields _ _

theorem decodePaymentHeader_spec_witness :
    decodePaymentHeader "not json".data x402Version = .error .malformed ∧
    decodePaymentHeader "\x7b\"scheme\":\"utxo\"\x7d".data x402Version =
      .error (.missingField "x402Version".data) ∧
    jGet decodedValidPayment "x402Version".data = some (.num ⟨1, 0⟩) :=
  ⟨decodePaymentHeader_spec.1 "not json".data x402Version (by rfl),
   decodePaymentHeader_spec.2.1 "\x7b\"scheme\":\"utxo\"\x7d".data x402Version
     (.obj [("scheme".data, .str "utxo".data)]) "x402Version".data (by rfl)
     (fun hh => Json.noConfusion hh) (by rfl),
   decodePaymentHeader_spec.2.2 validPaymentHeader x402Version decodedValidPayment (by rfl)⟩

/-- C6 counterexample: the header text `null` is valid JSON and all four
required fields are absent from it, yet decoding fails with the
null-property-access `TypeError` rather than a missing-field error (reading
`decodedPayment['x402Version']` on `null` throws before the nullish check
can run). -/
theorem decodePaymentHeader_null_header_typeerror :
    decodePaymentHeader "null".data x402Version =
      .error (.nullAccess "x402Version".data) := by rfl

/-- C10: a required field that is present with value `null` fails decoding
exactly like an absent field: when it is the first nullish field in check
order, the missing-field error names it even though the field is present in
the JSON object. -/
theorem decodePaymentHeader_null_field_missing :
    ∀ (s : Str) (v : Dec) (j : Json) (f : Str),
      jsonParse s = some j → jGet j f = some .null → firstNullishField j = some f →
      decodePaymentHeader s v = .error (.missingField f) := by
  intro s v j f hp hget hf
  have hn : j ≠ .null := by
    intro he
    rw [he] at hget
    exact absurd hget (by simp [jGet])
  exact decode_missing_of_firstNullish s v j f hp hn hf

theorem decodePaymentHeader_null_field_missing_witness :
    decodePaymentHeader nullPayloadHeader x402Version =
      .error (.missingField "payload".data) :=
  decodePaymentHeader_null_field_missing nullPayloadHeader x402Version
    (.obj [("x402Version".data, .num ⟨1, 0⟩), ("scheme".data, .str "utxo".data),
           ("network".data, .str "bch".data), ("payload".data, .null)])
    "payload".data (by rfl) (by rfl) (by rfl)

/-- C2 (amended): when a request reaches verification and no fetch
implementation exists, the thrown transport error is caught at the request
boundary and converted into a 402 whose `error` is the transport-required
message — it does not propagate out of the handler and does not abort
setup. -/
theorem transportUnavailable_yields_402
    (payTo : Str) (pats : List (CompiledPattern RouteConfig)) (w : TransportWorld)
    (req : Request) (route : CompiledPattern RouteConfig)
    (reqs : List PaymentRequirement) (dp : Json) (sel : PaymentRequirement)
    (hfm : findMatchingRoute pats req.path req.method = some route)
    (hbp : buildPaymentRequirements payTo route.config req = .ok reqs)
    (hhd : ¬ req.xPaymentHeader.getD [] = [])
    (hdec : decodePaymentHeader (req.xPaymentHeader.getD []) x402Version = .ok dp)
    (hfind : reqs.find? (fun requirement =>
        jsStrictEqStr (jGet dp "scheme".data) requirement.scheme &&
        jsStrictEqStr (jGet dp "network".data) requirement.network) = some sel)
    (hfetch : w.hasFetch = false) :
    paymentMiddlewareHandler payTo pats w req =
      .resp402 { x402Version := x402Version, error := .str fetchRequiredMsg,
                 accepts := reqs, payer := none } := by
  unfold paymentMiddlewareHandler
  rw [hfm]
  dsimp only
  rw [hbp]
  dsimp only
  rw [if_neg hhd, hdec]
  dsimp only
  rw [hfind]
  dsimp only
  rw [hfetch]
  rfl

/-- C2 counterexample: with no caller-supplied transport and no
process-default client, a verified-route request is answered with a 402
carrying the transport-required message — the error is swallowed by the
request-boundary catch and converted into a request-handling outcome, not
propagated to the caller. -/
theorem transportUnavailable_not_propagated :
    paymentMiddlewareHandler payToAddress basePatterns noFetchWorld
      (protectedReq (some validPaymentHeader)) =
    .resp402 { x402Version := ⟨1, 0⟩, error := .str fetchRequiredMsg,
               accepts := protectedRequirements, payer := none } := by rfl

theorem transportUnavailable_yields_402_witness :
    paymentMiddlewareHandler payToAddress basePatterns noFetchWorld
      (protectedReq (some validPaymentHeader)) =
    .resp402 { x402Version := x402Version, error := .str fetchRequiredMsg,
               accepts := protectedRequirements, payer := none } :=
  transportUnavailable_yields_402 payToAddress basePatterns noFetchWorld
    (protectedReq (some validPaymentHeader))
    { verb := "GET".data, src := "^\\/protected$".data
      toks := [.lit '/', .lit 'p', .lit 'r', .lit 'o', .lit 't', .lit 'e', .lit 'c',
               .lit 't', .lit 'e', .lit 'd']
      config := protConfig }
    protectedRequirements decodedValidPayment protectedRequirement
    (by rfl) (by rfl) (by decide) (by rfl) (by rfl) (by rfl)

theorem jsOrJson_str_empty_default (p : Str) :
    jsOrJson (some (.str p)) (.str []) = .str p := by
  by_cases h : p = [] <;> simp [jsOrJson, jTruthy, h]

/-- C8 (amended): a success-status verify response whose body has
`isValid: false` is not treated as an exception: the gate writes a 402
whose `error` is the result's `invalidReason` whenever that reason is
non-empty (a falsy reason falls back to the default message through `||`,
see the counterexample) and whose `payer` is the result's `payer`, and
`next` is not called. -/
theorem verification_rejection_reports_reason_and_payer
    (payTo : Str) (pats : List (CompiledPattern RouteConfig)) (w : TransportWorld)
    (req : Request) (route : CompiledPattern RouteConfig)
    (reqs : List PaymentRequirement) (dp : Json) (sel : PaymentRequirement)
    (resp : FetchResponse) (vr : Json) (r p : Str)
    (hfm : findMatchingRoute pats req.path req.method = some route)
    (hbp : buildPaymentRequirements payTo route.config req = .ok reqs)
    (hhd : ¬ req.xPaymentHeader.getD [] = [])
    (hdec : decodePaymentHeader (req.xPaymentHeader.getD []) x402Version = .ok dp)
    (hfind : reqs.find? (fun requirement =>
        jsStrictEqStr (jGet dp "scheme".data) requirement.scheme &&
        jsStrictEqStr (jGet dp "network".data) requirement.network) = some sel)
    (hfetch : w.hasFetch = true)
    (hauth : w.authHeaders = .ok ())
    (hresp : w.fetchResult = .ok resp)
    (hok : resp.ok = true)
    (hjson : resp.jsonBody = .ok vr)
    (hvalid : jGet vr "isValid".data = some (.bool false))
    (hreason : jGet vr "invalidReason".data = some (.str r))
    (hr : r ≠ [])
    (hpayer : jGet vr "payer".data = some (.str p)) :
    paymentMiddlewareHandler payTo pats w req =
      .resp402 { x402Version := x402Version, error := .str r,
                 accepts := reqs, payer := some (.str p) } := by
  unfold paymentMiddlewareHandler
  rw [hfm]
  try dsimp only
  rw [hbp]
  try dsimp only
  rw [if_neg hhd, hdec]
  try dsimp only
  rw [hfind]
  try dsimp only
  rw [hfetch]
  try dsimp only
  rw [hauth]
  try dsimp only
  rw [hresp]
  try dsimp only
  rw [hok]
  try dsimp only
  rw [hjson]
  try dsimp only
  rw [hvalid]
  try dsimp only [jTruthyOpt, jTruthy]
  rw [hreason, hpayer, jsOrJson_str_empty_default]
  simp [jsOrJson, jTruthy, hr]

/-- C8 counterexample: an `isValid: false` result whose `invalidReason` is
the empty string is reported with the default message, not with the
(empty) reason the result carries: `invalidReason || default` falls through
on the falsy empty string. -/
theorem verification_rejection_empty_reason_default :
    (match paymentMiddlewareHandler payToAddress basePatterns emptyReasonWorld
        (protectedReq (some validPaymentHeader)) with
     | .resp402 b => some b.error
     | _ => none) = some (.str verificationFailedMsg) := by rfl

theorem verification_rejection_reports_reason_and_payer_witness :
    paymentMiddlewareHandler payToAddress basePatterns rejectWorld
      (protectedReq (some validPaymentHeader)) =
    .resp402 { x402Version := x402Version, error := .str "insufficient amount".data,
               accepts := protectedRequirements,
               payer := some (.str "payer-id".data) } :=
  verification_rejection_reports_reason_and_payer payToAddress basePatterns rejectWorld
    (protectedReq (some validPaymentHeader))
    { verb := "GET".data, src := "^\\/protected$".data
      toks := [.lit '/', .lit 'p', .lit 'r', .lit 'o', .lit 't', .lit 'e', .lit 'c',
               .lit 't', .lit 'e', .lit 'd']
      config := protConfig }
    protectedRequirements decodedValidPayment protectedRequirement
    { ok := true, status := 200, statusText := "OK".data
      jsonBody := .ok (.obj
        [("isValid".data, .bool false),
         ("invalidReason".data, .str "insufficient amount".data),
         ("payer".data, .str "payer-id".data)]) }
    (.obj [("isValid".data, .bool false),
           ("invalidReason".data, .str "insufficient amount".data),
           ("payer".data, .str "payer-id".data)])
    "insufficient amount".data "payer-id".data
    (by rfl) (by rfl) (by decide) (by rfl) (by rfl) (by rfl) (by rfl) (by rfl)
    (by rfl) (by rfl) (by rfl) (by rfl) (by decide) (by rfl)

theorem buildPaymentRequirements_ok_of_resolve (payTo : Str) (cfg : RouteConfig)
    (req : Request) (n : ℤ) (h : resolveMinAmountRequired cfg = .ok n) :
    ∃ l, buildPaymentRequirements payTo cfg req = .ok l := by
  unfold buildPaymentRequirements
  rw [h]
  exact ⟨_, rfl⟩

/-- C1 (amended): for every request whose matched route (if any) has a
resolvable amount configuration, exactly one of the two outcomes occurs —
`next` with nothing written, or exactly one 402 response — never both,
never neither; and `next` happens precisely in the Unmatched case
(`findMatchingRoute` returns none) and the Admitted case (the facilitator
exchange completed with a truthy `isValid`).  Without the amount
hypothesis the contract fails: an invalid `minAmountRequired` throws out of
`buildPaymentRequirements`, which sits outside every try/catch, and
neither outcome occurs (see the counterexample). -/
theorem paymentGate_exactly_one_outcome
    (payTo : Str) (pats : List (CompiledPattern RouteConfig)) (w : TransportWorld)
    (req : Request)
    (hAmt : ∀ route, findMatchingRoute pats req.path req.method = some route →
      ∃ n, resolveMinAmountRequired route.config = .ok n) :
    (paymentMiddlewareHandler payTo pats w req = .next ∨
      ∃ b, paymentMiddlewareHandler payTo pats w req = .resp402 b) ∧
    (paymentMiddlewareHandler payTo pats w req = .next ↔
      (findMatchingRoute pats req.path req.method = none ∨
        isAdmitted payTo pats w req = true)) := by
  unfold paymentMiddlewareHandler isAdmitted
  cases hfm : findMatchingRoute pats req.path req.method with
  | none => simp
  | some route =>
      obtain ⟨n, hres⟩ := hAmt route hfm
      obtain ⟨l, hl⟩ := buildPaymentRequirements_ok_of_resolve payTo route.config req n hres
      try dsimp only
      rw [hl]
      try dsimp only
      by_cases hhd : req.xPaymentHeader.getD [] = []
      · simp [hhd]
      · simp only [if_neg hhd]
        cases hdec : decodePaymentHeader (req.xPaymentHeader.getD []) x402Version with
        | error e => simp
        | ok dp =>
            try dsimp only
            cases hfind : l.find? (fun requirement =>
                jsStrictEqStr (jGet dp "scheme".data) requirement.scheme &&
                jsStrictEqStr (jGet dp "network".data) requirement.network) with
            | none => simp
            | some sel =>
                try dsimp only
                cases hfetch : w.hasFetch with
                | false => simp
                | true =>
                    try dsimp only
                    cases hauth : w.authHeaders with
                    | error msg => simp
                    | ok u =>
                        try dsimp only
                        cases hresp : w.fetchResult with
                        | error msg => simp
                        | ok response =>
                            try dsimp only
                            cases hok : response.ok with
                            | false => simp
                            | true =>
                                try dsimp only
                                cases hjson : response.jsonBody with
                                | error msg => simp
                                | ok vr =>
                                    try dsimp only
                                    by_cases hv :
                                        jTruthyOpt (jGet vr "isValid".data) = true
                                    · simp [hv]
                                    · simp [hv]

/-- C1 counterexample: a matched request on a route configured with
`minAmountRequired: 0` ends in neither of the two claimed outcomes — the
amount error thrown by `buildPaymentRequirements` (called outside every
try/catch of the handler) escapes as an exception, so `next` is not called
and no 402 is written. -/
theorem paymentGate_throws_on_invalid_amount :
    paymentMiddlewareHandler payToAddress badAmountPatterns okWorld
      { path := "/p".data, method := "GET".data, protocol := "http".data
        host := "example.com".data, xPaymentHeader := none } =
    .thrown minAmountErrorMsg := by rfl

theorem paymentGate_exactly_one_outcome_witness :
    (paymentMiddlewareHandler payToAddress basePatterns okWorld
        (protectedReq (some validPaymentHeader)) = .next ∨
      ∃ b, paymentMiddlewareHandler payToAddress basePatterns okWorld
        (protectedReq (some validPaymentHeader)) = .resp402 b) ∧
    (paymentMiddlewareHandler payToAddress basePatterns okWorld
        (protectedReq (some validPaymentHeader)) = .next ↔
      (findMatchingRoute basePatterns (protectedReq (some validPaymentHeader)).path
          (protectedReq (some validPaymentHeader)).method = none ∨
        isAdmitted payToAddress basePatterns okWorld
          (protectedReq (some validPaymentHeader)) = true)) :=
  paymentGate_exactly_one_outcome payToAddress basePatterns okWorld
    (protectedReq (some validPaymentHeader))
    (fun route h => by
      have h2 : some protPattern = some route := h
      injection h2 with h3
      rw [← h3]
      exact ⟨1500, rfl⟩)

theorem findMatchingRoute_tie_prefers_earliest_witness :
    findMatchingRoute tiePatterns "/ab".data "GET".data =
      firstLongest (candidateRoutes tiePatterns "/ab".data "GET".data) ∧
    (findMatchingRoute tiePatterns "/ab".data "GET".data).map (fun c => c.config.price) =
      some (some (.num (.num ⟨100, 0⟩))) :=
  ⟨findMatchingRoute_tie_prefers_earliest.1 RouteConfig tiePatterns
    "/ab".data "GET".data "/ab".data (by rfl), by rfl⟩

end X402

